import Mathlib

/-!
deepin-album: watch reconciler and rotation commit.

A shallow embedding of `ImageFileWatcher` (src/imagedata/imagefilewatcher.cpp)
and of the rotation part of `FileControl` (src/filecontrol.cpp).

Qt containers are association lists / lists, signals and calls into external
libraries are returned as a list of effects, and everything the code reads from
the outside world (the disk, Qt path helpers, the image library) is a field of
an explicit environment that every operation receives.
-/

namespace DeepinAlbum

/-! ## Environment -/

/-- A `QUrl` is represented by the string it was built from
(`QUrl(const QString &)` is then the identity). -/
abbrev QUrl := String

/-- What the watcher reads from outside the program at the time of one call.
`fileExists` is `QFileInfo::exists` / `QFile::exists`, `isDir` is
`QFileInfo::isDir`, `toLocalFile p` is `QUrl(p).toLocalFile()`,
`absolutePath p` is `QFileInfo(p).absolutePath()` and `fileName p` is
`QFileInfo(p).fileName()`. -/
structure Env where
  fileExists : String → Bool
  isDir : String → Bool
  toLocalFile : String → String
  absolutePath : String → String
  fileName : String → String

/-! ## Qt containers -/

/-- Qt `QHash<QString, QUrl>` as an association list, in insertion order. The
members `cacheFileInfo` and `removedFile` are declared in a header that is not
part of the sources; they are used as maps from a local path to a `QUrl`
(`contains`, `value`, `insert`, `erase`, iteration), and no result below
depends on the iteration order. -/
abbrev PathMap := List (String × QUrl)

namespace PathMap

/-- The keys of the map, in iteration order. -/
def keys (m : PathMap) : List String := m.map Prod.fst

/-- Qt `QHash::contains`. -/
def contains (m : PathMap) (k : String) : Bool := m.any (fun e => e.1 == k)

/-- Qt `QHash::value`: the stored value, or a default-constructed `QUrl`. -/
def value (m : PathMap) (k : String) : QUrl := (m.lookup k).getD ""

/-- Qt `QHash::insert`: replaces the value of an existing key, otherwise adds a
new entry. -/
def insert (m : PathMap) (k : String) (v : QUrl) : PathMap :=
  if m.contains k then m.map (fun e => if e.1 == k then (k, v) else e)
  else m ++ [(k, v)]

/-- Qt `QHash::erase` of the entry with key `k` (also `QHash::remove`). -/
def erase (m : PathMap) (k : String) : PathMap := m.filter (fun e => !(e.1 == k))

end PathMap

/-- Qt `QSet<QString>` as a list. -/
abbrev PathSet := List String

namespace PathSet

/-- Qt `QSet::insert`. -/
def insert (s : PathSet) (p : String) : PathSet := if s.contains p then s else s ++ [p]

/-- Qt `QSet::remove`. -/
def remove (s : PathSet) (p : String) : PathSet := s.filter (fun q => !(q == p))

end PathSet

/-! ## QFileSystemWatcher (Qt, documented behaviour) -/

/-- The two path lists a `QFileSystemWatcher` reports through `files()` and
`directories()`. -/
structure QFileSystemWatcher where
  files : List String
  directories : List String
deriving DecidableEq, Repr

namespace QFileSystemWatcher

/-- Qt `QFileSystemWatcher::addPath`: "Adds path to the file system watcher if
path exists. The path is not added if it does not exist, or if it is already
being monitored". An empty path is rejected; a directory goes to
`directories()`, anything else to `files()`. -/
def addPath (env : Env) (w : QFileSystemWatcher) (path : String) : QFileSystemWatcher :=
  if path.isEmpty then w
  else if !env.fileExists path then w
  else if env.isDir path then
    if w.directories.contains path then w
    else { w with directories := w.directories ++ [path] }
  else
    if w.files.contains path then w
    else { w with files := w.files ++ [path] }

/-- Qt `QFileSystemWatcher::removePath`: the path is monitored no longer. -/
def removePath (w : QFileSystemWatcher) (path : String) : QFileSystemWatcher :=
  { files := w.files.filter (fun q => !(q == path)),
    directories := w.directories.filter (fun q => !(q == path)) }

/-- Qt `QFileSystemWatcher::removePaths`. -/
def removePaths (w : QFileSystemWatcher) (paths : List String) : QFileSystemWatcher :=
  paths.foldl removePath w

/-- Whether `path` is monitored, as a file or as a directory. -/
def watches (w : QFileSystemWatcher) (path : String) : Bool :=
  w.files.contains path || w.directories.contains path

end QFileSystemWatcher

/-! ## ImageFileWatcher -/

/-- What a watcher operation does to the outside: the public signal
`imageFileChanged(file)` and the reload of the image cache
(`ImageInfo::setSource(url); clearCurrentCache(); reloadData()`). -/
inductive WatcherEffect where
  | imageFileChanged (file : String)
  | reloadData (url : QUrl)
deriving DecidableEq, Repr

/-- The members of `ImageFileWatcher`. -/
structure ImageFileWatcher where
  fileWatcher : QFileSystemWatcher
  cacheFileInfo : PathMap
  removedFile : PathMap
  rotateImagePathSet : PathSet
deriving DecidableEq, Repr

namespace ImageFileWatcher

/-- The state after the constructor: nothing watched, nothing recorded. -/
def init : ImageFileWatcher :=
  { fileWatcher := { files := [], directories := [] },
    cacheFileInfo := [], removedFile := [], rotateImagePathSet := [] }

/-- Embedding of `ImageFileWatcher::isCurrentDir`. -/
def isCurrentDir (env : Env) (s : ImageFileWatcher) (filePath : String) : Bool :=
  let dir := env.absolutePath filePath
  s.fileWatcher.directories.contains dir

/-- One round of the `for` loop of `resetImageFiles`. -/
def resetAddFile (env : Env) (s : ImageFileWatcher) (filePath : String) : ImageFileWatcher :=
  let tempPath := env.toLocalFile filePath
  if env.fileExists tempPath then
    { s with cacheFileInfo := s.cacheFileInfo.insert tempPath filePath,
             fileWatcher := s.fileWatcher.addPath env tempPath }
  else s

/-- Embedding of `ImageFileWatcher::resetImageFiles`. -/
def resetImageFiles (env : Env) (s : ImageFileWatcher) (filePaths : List String) :
    ImageFileWatcher :=
  let s := { s with cacheFileInfo := [], removedFile := [], rotateImagePathSet := [] }
  match filePaths with
  | [] =>
    let w := s.fileWatcher
    let w := if !w.files.isEmpty then w.removePaths w.files else w
    let w := if !w.directories.isEmpty then w.removePaths w.directories else w
    { s with fileWatcher := w }
  | first :: _ =>
    if isCurrentDir env s first then s
    else
      let w := s.fileWatcher
      let w := w.removePaths w.files
      let w := w.removePaths w.directories
      let s := filePaths.foldl (resetAddFile env) { s with fileWatcher := w }
      match s.fileWatcher.files with
      | [] => s
      | f :: _ => { s with fileWatcher := s.fileWatcher.addPath env (env.absolutePath f) }

/-- Embedding of `ImageFileWatcher::fileRename`. -/
def fileRename (env : Env) (s : ImageFileWatcher) (oldPath newPath : String) :
    ImageFileWatcher :=
  if s.cacheFileInfo.contains oldPath then
    let w := s.fileWatcher.removePath oldPath
    { s with cacheFileInfo := s.cacheFileInfo.insert newPath newPath,
             fileWatcher := w.addPath env newPath }
  else s

/-- Embedding of `ImageFileWatcher::recordRotateImage`. -/
def recordRotateImage (s : ImageFileWatcher) (targetPath : String) : ImageFileWatcher :=
  { s with rotateImagePathSet := s.rotateImagePathSet.insert targetPath }

/-- Embedding of `ImageFileWatcher::clearRotateStatus`. -/
def clearRotateStatus (s : ImageFileWatcher) (targetPath : String) : ImageFileWatcher :=
  if s.rotateImagePathSet.contains targetPath then
    { s with rotateImagePathSet := s.rotateImagePathSet.remove targetPath }
  else s

/-- Embedding of `ImageFileWatcher::onImageFileChanged`: the new state and what was emitted. -/
def onImageFileChanged (env : Env) (s : ImageFileWatcher) (file : String) :
    ImageFileWatcher × List WatcherEffect :=
  if s.rotateImagePathSet.contains file then (s, [])
  else if s.cacheFileInfo.contains file then
    let url := s.cacheFileInfo.value file
    let isExist := env.fileExists file
    let s := if !isExist then { s with removedFile := s.removedFile.insert file url } else s
    (s, [.imageFileChanged file, .reloadData url])
  else (s, [])

/-- The iterator loop of `onImageDirChanged` over the entries of `removedFile`
that are still to be visited. The nested `onImageFileChanged` only ever
re-inserts the key under the iterator, which is erased right afterwards, so
the entries after the iterator are the ones of the map at loop entry. -/
def dirChangedLoop (env : Env) (dirFiles : List String) :
    List (String × QUrl) → ImageFileWatcher → ImageFileWatcher × List WatcherEffect
  | [], s => (s, [])
  | (key, _) :: rest, s =>
    if dirFiles.contains (env.fileName key) then
      let s := { s with fileWatcher := s.fileWatcher.addPath env key }
      let r := onImageFileChanged env s key
      let s := { r.1 with removedFile := r.1.removedFile.erase key }
      let r2 := dirChangedLoop env dirFiles rest s
      (r2.1, r.2 ++ r2.2)
    else dirChangedLoop env dirFiles rest s

/-- Embedding of `ImageFileWatcher::onImageDirChanged`; `dirFiles` is what
`QDir(dir).entryList()` returns at the time of the call. -/
def onImageDirChanged (env : Env) (dirFiles : List String) (s : ImageFileWatcher)
    (_dir : String) : ImageFileWatcher × List WatcherEffect :=
  dirChangedLoop env dirFiles s.removedFile s

end ImageFileWatcher

/-! ## A concrete disk for the scenarios -/

/-- The path helpers on the few paths the scenarios use. -/
def demoEnv (present : List String) : Env :=
  { fileExists := fun p => present.contains p,
    isDir := fun p => p == "/tmp/dir" || p == "/tmp/other",
    toLocalFile := fun p =>
      if p == "file:///tmp/dir/a.png" then "/tmp/dir/a.png"
      else if p == "file:///tmp/dir/b.png" then "/tmp/dir/b.png"
      else if p == "file:///tmp/other/a.png" then "/tmp/other/a.png"
      else "",
    absolutePath := fun p =>
      if p == "/tmp/dir/a.png" || p == "/tmp/dir/b.png" then "/tmp/dir"
      else if p == "/tmp/other/a.png" then "/tmp/other"
      else p,
    fileName := fun p =>
      if p == "/tmp/dir/a.png" || p == "/tmp/other/a.png" then "a.png"
      else if p == "/tmp/dir/b.png" then "b.png"
      else p }

/-! ## FileControl: deferred rotation commit -/

/-- Modelled from the spec: the enum `imageViewerSpace::PathType` is declared in
a header that is not part of the sources; these are the five storage types
`slotRotatePixCurrent` names (phone over MTP or PTP, Apple device, secure
vault, recycle bin) and one constructor for every other storage type. -/
inductive PathType where
  | PathTypeMTP
  | PathTypePTP
  | PathTypeAPPLE
  | PathTypeSAFEBOX
  | PathTypeRECYCLEBIN
  | PathTypeOther
deriving DecidableEq, Repr

/-- The image library as `FileControl` calls it: `localPath p` is
`LibUnionImage_NameSpace::localPath(p)` and `getPathType p` is
`LibUnionImage_NameSpace::getPathType(p)`. -/
structure ImageLib where
  localPath : String → String
  getPathType : String → PathType

/-- What the rotation code does to the outside, in program order: stopping and
starting the timer `m_tSaveImage`, the call
`LibUnionImage_NameSpace::rotateImageFIle(angle, path, erroMsg)` that rewrites
the file, and the signal `callSavePicDone(QUrl::fromLocalFile(path).toString())`. -/
inductive FileEffect where
  | timerStop
  | timerStart (msec : Nat)
  | rotateImageFIle (angle : Int) (path : String)
  | callSavePicDone (path : String)
deriving DecidableEq, Repr

/-- The members of `FileControl` the rotation code uses. `m_rotateAngel` is a
C++ `int`: an integer that `m_rotateAngel += rotateAngel` keeps in the 32-bit
range (see `wrapInt32`). `m_tSaveImage` is `m_tSaveImage->isActive()`. -/
structure FileControl where
  m_currentPath : String
  m_rotateAngel : Int
  m_tSaveImage : Bool
deriving DecidableEq, Repr

/-- The value a 32-bit `int` holds when the exact result of an addition is `x`:
the two's-complement result of the compiled program, equal to `x` whenever `x`
is in the range of `int`. -/
def wrapInt32 (x : Int) : Int := (x + 2147483648) % 4294967296 - 2147483648

namespace FileControl

/-- The test of `slotRotatePixCurrent` on the storage type: true when the file
may be rewritten. -/
def writeAllowed (pathType : PathType) : Bool :=
  pathType != .PathTypeMTP && pathType != .PathTypePTP &&
  pathType != .PathTypeAPPLE &&
  pathType != .PathTypeSAFEBOX &&
  pathType != .PathTypeRECYCLEBIN

/-- Embedding of `FileControl::slotRotatePixCurrent(bool bNotifyExternal)`; `%` is the C++
remainder, which truncates towards zero. -/
def slotRotatePixCurrent (lib : ImageLib) (s : FileControl) (bNotifyExternal : Bool) :
    FileControl × List FileEffect :=
  let stop : List FileEffect := if s.m_tSaveImage then [.timerStop] else []
  let angle := s.m_rotateAngel.tmod 360
  let write : List FileEffect :=
    if angle != 0 then
      let pathType := lib.getPathType s.m_currentPath
      if writeAllowed pathType then
        [.rotateImageFIle angle s.m_currentPath] ++
          (if bNotifyExternal then [.callSavePicDone s.m_currentPath] else [])
      else []
    else []
  ({ s with m_tSaveImage := false, m_rotateAngel := 0 }, stop ++ write)

/-- Embedding of `FileControl::rotateFile(const QString &path, const int &rotateAngel)`; the
returned `bRet` is always `true` and is left out. -/
def rotateFile (lib : ImageLib) (s : FileControl) (path : String) (rotateAngel : Int) :
    FileControl × List FileEffect :=
  let localPath := lib.localPath path
  let r : FileControl × List FileEffect :=
    if s.m_currentPath != localPath then
      let f := slotRotatePixCurrent lib s true
      ({ f.1 with m_currentPath := localPath, m_rotateAngel := rotateAngel }, f.2)
    else ({ s with m_rotateAngel := wrapInt32 (s.m_rotateAngel + rotateAngel) }, [])
  ({ r.1 with m_tSaveImage := true }, r.2 ++ [.timerStart 100])

/-- The timeout of the single-shot timer `m_tSaveImage` (the lambda connected
in the constructor). It can only happen while the timer is active; a
single-shot timer is inactive when its slot runs. -/
def saveImageTimeout (lib : ImageLib) (s : FileControl) :
    Option (FileControl × List FileEffect) :=
  if s.m_tSaveImage then
    let r := slotRotatePixCurrent lib { s with m_tSaveImage := false } false
    some (r.1, r.2 ++ [.callSavePicDone r.1.m_currentPath])
  else none

/-- The file rewrites in a run, in order: angle and path of every
`rotateImageFIle` call. -/
def writes : List FileEffect → List (Int × String)
  | [] => []
  | .rotateImageFIle angle path :: rest => (angle, path) :: writes rest
  | _ :: rest => writes rest

end FileControl

/-- An image library for the scenarios: paths are local already, and everything
under `/run/user/1000/gvfs/mtp` is a phone. -/
def demoLib : ImageLib :=
  { localPath := fun p => p,
    getPathType := fun p =>
      if p == "/run/user/1000/gvfs/mtp/a.png" then .PathTypeMTP else .PathTypeOther }

/-! ## Reachable watcher states -/

/-- The watcher states that the public operations and the two event handlers
can produce from the initial state, under any behaviour of the disk. -/
inductive Reachable : ImageFileWatcher → Prop where
  | init : Reachable ImageFileWatcher.init
  | resetImageFiles (env : Env) (filePaths : List String) {s : ImageFileWatcher} :
      Reachable s → Reachable (s.resetImageFiles env filePaths)
  | fileRename (env : Env) (oldPath newPath : String) {s : ImageFileWatcher} :
      Reachable s → Reachable (s.fileRename env oldPath newPath)
  | recordRotateImage (targetPath : String) {s : ImageFileWatcher} :
      Reachable s → Reachable (s.recordRotateImage targetPath)
  | clearRotateStatus (targetPath : String) {s : ImageFileWatcher} :
      Reachable s → Reachable (s.clearRotateStatus targetPath)
  | onImageFileChanged (env : Env) (file : String) {s : ImageFileWatcher} :
      Reachable s → Reachable (s.onImageFileChanged env file).1
  | onImageDirChanged (env : Env) (dirFiles : List String) (dir : String)
      {s : ImageFileWatcher} :
      Reachable s → Reachable (s.onImageDirChanged env dirFiles dir).1

/-- The reachable states of the runs in which the caller records a rotation
only for a path that is tracked at that moment. -/
inductive ReachableTrackedRotate : ImageFileWatcher → Prop where
  | init : ReachableTrackedRotate ImageFileWatcher.init
  | resetImageFiles (env : Env) (filePaths : List String) {s : ImageFileWatcher} :
      ReachableTrackedRotate s → ReachableTrackedRotate (s.resetImageFiles env filePaths)
  | fileRename (env : Env) (oldPath newPath : String) {s : ImageFileWatcher} :
      ReachableTrackedRotate s → ReachableTrackedRotate (s.fileRename env oldPath newPath)
  | recordRotateImage (targetPath : String) {s : ImageFileWatcher} :
      ReachableTrackedRotate s → s.cacheFileInfo.contains targetPath = true →
      ReachableTrackedRotate (s.recordRotateImage targetPath)
  | clearRotateStatus (targetPath : String) {s : ImageFileWatcher} :
      ReachableTrackedRotate s → ReachableTrackedRotate (s.clearRotateStatus targetPath)
  | onImageFileChanged (env : Env) (file : String) {s : ImageFileWatcher} :
      ReachableTrackedRotate s → ReachableTrackedRotate (s.onImageFileChanged env file).1
  | onImageDirChanged (env : Env) (dirFiles : List String) (dir : String)
      {s : ImageFileWatcher} :
      ReachableTrackedRotate s → ReachableTrackedRotate (s.onImageDirChanged env dirFiles dir).1

/-- The watcher after `resetImageFiles(["file:///tmp/dir/a.png"])` on a disk
that holds `/tmp/dir/a.png`. -/
def watchingA : ImageFileWatcher :=
  ImageFileWatcher.init.resetImageFiles (demoEnv ["/tmp/dir", "/tmp/dir/a.png"])
    ["file:///tmp/dir/a.png"]

/-- How often `imageFileChanged(file)` is emitted in a run. -/
def notifications (file : String) (effects : List WatcherEffect) : Nat :=
  effects.count (.imageFileChanged file)

/-! ## Runs of the watcher -/

/-- One call of a public operation of the watcher or one delivery of a
file-system event, with what the call reads from the disk. -/
inductive WatcherCall where
  | resetImageFiles (env : Env) (filePaths : List String)
  | fileRename (env : Env) (oldPath newPath : String)
  | recordRotateImage (targetPath : String)
  | clearRotateStatus (targetPath : String)
  | onImageFileChanged (env : Env) (file : String)
  | onImageDirChanged (env : Env) (dirFiles : List String) (dir : String)

namespace WatcherCall

/-- The state after the call and what the call emitted. -/
def run : WatcherCall → ImageFileWatcher → ImageFileWatcher × List WatcherEffect
  | .resetImageFiles env filePaths, s => (s.resetImageFiles env filePaths, [])
  | .fileRename env oldPath newPath, s => (s.fileRename env oldPath newPath, [])
  | .recordRotateImage targetPath, s => (s.recordRotateImage targetPath, [])
  | .clearRotateStatus targetPath, s => (s.clearRotateStatus targetPath, [])
  | .onImageFileChanged env file, s => s.onImageFileChanged env file
  | .onImageDirChanged env dirFiles dir, s => s.onImageDirChanged env dirFiles dir

/-- Whether the call is `clearRotateStatus(P)` or a reset of the watch list. -/
def unsuppresses (P : String) : WatcherCall → Bool
  | .resetImageFiles _ _ => true
  | .clearRotateStatus targetPath => targetPath == P
  | _ => false

end WatcherCall

/-- The calls of a list made one after the other: the final state and
everything emitted, in order. -/
def runCalls : List WatcherCall → ImageFileWatcher → ImageFileWatcher × List WatcherEffect
  | [], s => (s, [])
  | c :: rest, s =>
    let r := c.run s
    let r2 := runCalls rest r.1
    (r2.1, r.2 ++ r2.2)

/-! ## ImageSourceModel -/

/-- A `QModelIndex` as the model sees it: row, column, and whether
`index.model()` is this model (false also for the null model of an invalid
index). -/
structure QModelIndex where
  row : Int
  column : Int
  ownModel : Bool
deriving DecidableEq, Repr

/-- Modelled from the spec: the role enumeration `Types` is declared in a header
that is not part of the sources; `ImageUrlRole` is the one role the model
serves, and its number is left open. -/
structure Types where
  ImageUrlRole : Int

/-- The change notifications of the list model: `dataChanged(index, index)` of
one row, the row removal announced by `beginRemoveRows(QModelIndex(), first,
last)` and `endRemoveRows()`, and the model reset. -/
inductive ModelSignal where
  | dataChanged (row : Int)
  | rowsRemoved (first last : Int)
  | modelReset
deriving DecidableEq, Repr

/-- The member of `ImageSourceModel`: the display sequence. -/
structure ImageSourceModel where
  imageUrlList : List QUrl
deriving DecidableEq, Repr

/-- Qt `QList::indexOf(value)`, scanning from the front; `i` is the index of the
head of the part still to scan. -/
def indexOfFrom : List QUrl → QUrl → Nat → Int
  | [], _, _ => -1
  | x :: rest, u, i => if x == u then (i : Int) else indexOfFrom rest u (i + 1)

namespace ImageSourceModel

/-- Embedding of `ImageSourceModel::rowCount`. -/
def rowCount (m : ImageSourceModel) : Int := m.imageUrlList.length

/-- Qt `QAbstractItemModel::checkIndex(index, ParentIsInvalid | IndexIsValid)` on
a list model, which has one column and no parent: the index is valid, belongs
to this model, and its row and column are in range. -/
def checkIndex (m : ImageSourceModel) (index : QModelIndex) : Bool :=
  index.ownModel && decide (0 ≤ index.row) && decide (0 ≤ index.column) &&
    decide (index.row < m.rowCount) && decide (index.column < 1)

/-- Embedding of `ImageSourceModel::data`: `none` is the invalid `QVariant`. -/
def data (types : Types) (m : ImageSourceModel) (index : QModelIndex) (role : Int) :
    Option QUrl :=
  if !m.checkIndex index then none
  else if role == types.ImageUrlRole then m.imageUrlList[index.row.toNat]?
  else none

/-- Embedding of `ImageSourceModel::setData`; `value` is `value.toUrl()`. The result is
the returned flag, the model afterwards and the signals emitted. -/
def setData (types : Types) (m : ImageSourceModel) (index : QModelIndex) (value : QUrl)
    (role : Int) : Bool × ImageSourceModel × List ModelSignal :=
  if !m.checkIndex index then (false, m, [])
  else if role == types.ImageUrlRole then
    (true, { imageUrlList := m.imageUrlList.set index.row.toNat value },
      [.dataChanged index.row])
  else (false, m, [])

/-- Embedding of `ImageSourceModel::indexForImagePath`. -/
def indexForImagePath (m : ImageSourceModel) (file : QUrl) : Int :=
  if file.isEmpty then -1
  else indexOfFrom m.imageUrlList file 0

/-- Embedding of `ImageSourceModel::setImageFiles`. -/
def setImageFiles (_m : ImageSourceModel) (files : List QUrl) :
    ImageSourceModel × List ModelSignal :=
  ({ imageUrlList := files }, [.modelReset])

/-- Embedding of `ImageSourceModel::removeImage`. -/
def removeImage (m : ImageSourceModel) (fileName : QUrl) :
    ImageSourceModel × List ModelSignal :=
  let index := indexOfFrom m.imageUrlList fileName 0
  if -1 != index then
    ({ imageUrlList := m.imageUrlList.eraseIdx index.toNat }, [.rowsRemoved index index])
  else (m, [])

end ImageSourceModel

/-! ## FileControl: rename on disk -/

/-- What `slotFileReName` reads from the disk: `fileExists` is `QFile::exists`
before the call, `path` and `suffix` are `QFileInfo::path` and
`QFileInfo::suffix`, `rename old new` is whether `QFile::rename` from `old` to
`new` succeeds, and `after` is what the watcher reads once the file is renamed. -/
structure RenameDisk where
  fileExists : String → Bool
  path : String → String
  suffix : String → String
  rename : String → String → Bool
  after : Env

/-- The signal `imageRenamed(QUrl::fromLocalFile(oldPath),
QUrl::fromLocalFile(newPath))` of `FileControl`. -/
inductive RenameSignal where
  | imageRenamed (oldPath newPath : String)
deriving DecidableEq, Repr

namespace FileControl

/-- The `_newName` that `slotFileReName` builds for the file at `localPath`. -/
def newName (d : RenameDisk) (name localPath : String) (isSuffix : Bool) : String :=
  let path := d.path localPath
  let suffix := d.suffix localPath
  if isSuffix then path ++ "/" ++ name
  else path ++ "/" ++ name ++ "." ++ suffix

/-- Embedding of `FileControl::slotFileReName`, with the watcher singleton as an explicit
state: the returned flag, the watcher afterwards and the signals emitted. -/
def slotFileReName (lib : ImageLib) (d : RenameDisk) (w : ImageFileWatcher)
    (name filepath : String) (isSuffix : Bool) :
    Bool × ImageFileWatcher × List RenameSignal :=
  let localPath := lib.localPath filepath
  if d.fileExists localPath then
    let _newName := newName d name localPath isSuffix
    if d.rename localPath _newName then
      (true, w.fileRename d.after localPath _newName, [.imageRenamed localPath _newName])
    else (false, w, [])
  else (false, w, [])

/-- A run of `rotateFile(path, a)` for the angles `a` of a list, in order, with
no timeout of the save timer in between: the final state and the effects. -/
def rotateFileAll (lib : ImageLib) (path : String) :
    List Int → FileControl → FileControl × List FileEffect
  | [], s => (s, [])
  | a :: rest, s =>
    let r := rotateFile lib s path a
    let r2 := rotateFileAll lib path rest r.1
    (r2.1, r.2 ++ r2.2)

end FileControl

/-- A disk for the rename scenarios: `/tmp/dir/a.png` exists and can be renamed
to anything but `/tmp/dir/b.png`, which is taken. -/
def demoRenameDisk : RenameDisk :=
  { fileExists := fun p => p == "/tmp/dir/a.png",
    path := fun _ => "/tmp/dir",
    suffix := fun _ => "png",
    rename := fun _ target => !(target == "/tmp/dir/b.png"),
    after := demoEnv ["/tmp/dir", "/tmp/dir/c.png"] }

/-- The role numbering of the scenarios: `Qt::UserRole + 1`. -/
def demoTypes : Types := { ImageUrlRole := 257 }

/-! ## FileControl: wallpaper -/

/-- What the body of the worker thread of `setWallpaper` reads from the desktop
session: `v23Valid` and `v20Valid` are `isValid()` of the interfaces on
`org.deepin.dde.Appearance1` and `com.deepin.daemon.Appearance`, `v23Error` is
`reply.errorMessage()` of the call on the first one, `sessionType` is the
variable `XDG_SESSION_TYPE`, `waylandDisplay` is whether `WAYLAND_DISPLAY`
contains `wayland` in any letter case, `displayV23Valid` is `isValid()` of the
interface on `org.deepin.dde.Display1`, `primaryV23` and `primaryV20` are the
property `Primary` of the two display services, and `primaryScreen` is
`QGuiApplication::primaryScreen()->name()`. -/
structure Session where
  v23Valid : Bool
  v20Valid : Bool
  v23Error : String
  sessionType : String
  waylandDisplay : Bool
  displayV23Valid : Bool
  primaryV23 : String
  primaryV20 : String
  primaryScreen : String

/-- A call of the method `SetMonitorBackground(screenname, path)` on the bus
service `service`. -/
inductive BusCall where
  | SetMonitorBackground (service screenname path : String)
deriving DecidableEq, Repr

namespace FileControl

/-- The `screenname` that `setWallpaper` passes on. -/
def screenname (e : Session) : String :=
  let isWayland :=
    if e.sessionType != "wayland" && !e.waylandDisplay then false else true
  if isWayland then
    if e.displayV23Valid then e.primaryV23 else e.primaryV20
  else e.primaryScreen

/-- Embedding of `FileControl::setWallpaper`: the bus calls made by the body of the worker
thread, in order; `none` is the null `QString`. -/
def setWallpaper (e : Session) (imgPath : Option String) : List BusCall :=
  match imgPath with
  | none => []
  | some path =>
    if e.v23Valid || e.v20Valid then
      let screen := screenname e
      let settingSucc := false
      let first : Bool × List BusCall :=
        if e.v23Valid then
          (e.v23Error.isEmpty, [.SetMonitorBackground "org.deepin.dde.Appearance1" screen path])
        else (settingSucc, [])
      let second : List BusCall :=
        if e.v20Valid && !first.1 then
          [.SetMonitorBackground "com.deepin.daemon.Appearance" screen path]
        else []
      first.2 ++ second
    else []

end FileControl

/-- A session with both appearance services, the newer one answering with an
error. -/
def demoSession : Session :=
  { v23Valid := true, v20Valid := true, v23Error := "no such monitor",
    sessionType := "x11", waylandDisplay := false, displayV23Valid := false,
    primaryV23 := "", primaryV20 := "", primaryScreen := "eDP-1" }

/-! ## Delivery of a file change by the library -/

namespace PathMap

theorem contains_iff_mem_keys (m : PathMap) (k : String) :
    m.contains k = true ↔ k ∈ m.keys := by
  simp [contains, keys]

theorem mem_keys_insert (m : PathMap) (k : String) (v : QUrl) (j : String) :
    j ∈ (m.insert k v).keys ↔ j ∈ m.keys ∨ j = k := by
  unfold insert
  split
  · rename_i h
    rw [contains_iff_mem_keys] at h
    simp only [keys, List.mem_map, Prod.exists, exists_and_right, exists_eq_right] at h ⊢
    constructor
    · rintro ⟨b, a, c, hm, he⟩
      by_cases hk : a = k
      · simp [hk] at he; exact Or.inr he.1.symm
      · simp [hk] at he; exact Or.inl ⟨c, he.1 ▸ he.2 ▸ hm⟩
    · rintro (⟨b, hb⟩ | rfl)
      · by_cases hk : j = k
        · subst hk; exact ⟨v, j, b, hb, by simp⟩
        · exact ⟨b, j, b, hb, by simp [hk]⟩
      · obtain ⟨b, hb⟩ := h
        exact ⟨v, j, b, hb, by simp⟩
  · simp [keys]

theorem erase_replace (m : PathMap) (k : String) (v : QUrl) :
    erase (m.map (fun e => if e.1 == k then (k, v) else e)) k = m.erase k := by
  induction m with
  | nil => rfl
  | cons e rest ih =>
    unfold erase at ih ⊢
    by_cases hk : e.1 = k
    · simpa [hk, List.filter_cons] using ih
    · simpa [hk, List.filter_cons] using ih

theorem erase_insert (m : PathMap) (k : String) (v : QUrl) :
    (m.insert k v).erase k = m.erase k := by
  unfold insert
  split
  · exact erase_replace m k v
  · simp [erase, List.filter_append]

theorem mem_keys_erase (m : PathMap) (k j : String) :
    j ∈ (m.erase k).keys ↔ j ∈ m.keys ∧ j ≠ k := by
  simp only [erase, keys, List.mem_map, List.mem_filter, Prod.exists, exists_and_right,
    exists_eq_right, Bool.not_eq_true', beq_eq_false_iff_ne, ne_eq]

end PathMap

namespace QFileSystemWatcher

theorem removePaths_files (paths : List String) (w : QFileSystemWatcher) :
    (w.removePaths paths).files = w.files.filter (fun q => !paths.contains q) := by
  unfold removePaths
  induction paths generalizing w with
  | nil => simp
  | cons p rest ih =>
    rw [List.foldl_cons, ih]
    simp only [removePath, List.filter_filter]
    congr 1
    funext q
    by_cases hq : q = p <;> simp [hq]

theorem removePaths_directories (paths : List String) (w : QFileSystemWatcher) :
    (w.removePaths paths).directories =
      w.directories.filter (fun q => !paths.contains q) := by
  unfold removePaths
  induction paths generalizing w with
  | nil => simp
  | cons p rest ih =>
    rw [List.foldl_cons, ih]
    simp only [removePath, List.filter_filter]
    congr 1
    funext q
    by_cases hq : q = p <;> simp [hq]

theorem addPath_watches_other (env : Env) (w : QFileSystemWatcher) (p q : String)
    (hq : q ≠ p) : (w.addPath env p).watches q = w.watches q := by
  unfold addPath watches
  split
  · rfl
  · split
    · rfl
    · split
      · split
        · rfl
        · simp [hq]
      · split
        · rfl
        · simp [hq]

end QFileSystemWatcher

namespace ImageFileWatcher

theorem onImageFileChanged_cacheFileInfo (env : Env) (s : ImageFileWatcher) (file : String) :
    (s.onImageFileChanged env file).1.cacheFileInfo = s.cacheFileInfo := by
  unfold onImageFileChanged
  split
  · rfl
  · split
    · dsimp only; split <;> rfl
    · rfl

theorem onImageFileChanged_rotateImagePathSet (env : Env) (s : ImageFileWatcher)
    (file : String) :
    (s.onImageFileChanged env file).1.rotateImagePathSet = s.rotateImagePathSet := by
  unfold onImageFileChanged
  split
  · rfl
  · split
    · dsimp only; split <;> rfl
    · rfl

/-- Whatever the nested handler did to the entry of `file`, erasing the entry
afterwards gives the map without it. -/
theorem onImageFileChanged_erase (env : Env) (s : ImageFileWatcher) (file : String) :
    (s.onImageFileChanged env file).1.removedFile.erase file = s.removedFile.erase file := by
  unfold onImageFileChanged
  split
  · rfl
  · split
    · dsimp only
      split
      · exact PathMap.erase_insert _ _ _
      · rfl
    · rfl

theorem dirChangedLoop_cons_listed (env : Env) (dirFiles : List String) (key : String)
    (v : QUrl) (rest : List (String × QUrl)) (s : ImageFileWatcher)
    (h : dirFiles.contains (env.fileName key) = true) :
    dirChangedLoop env dirFiles ((key, v) :: rest) s =
      ((dirChangedLoop env dirFiles rest
          { (onImageFileChanged env
              { s with fileWatcher := s.fileWatcher.addPath env key } key).1 with
            removedFile :=
              (onImageFileChanged env
                { s with fileWatcher := s.fileWatcher.addPath env key } key).1.removedFile.erase
                key }).1,
        (onImageFileChanged env
            { s with fileWatcher := s.fileWatcher.addPath env key } key).2 ++
          (dirChangedLoop env dirFiles rest
            { (onImageFileChanged env
                { s with fileWatcher := s.fileWatcher.addPath env key } key).1 with
              removedFile :=
                (onImageFileChanged env
                  { s with fileWatcher := s.fileWatcher.addPath env key }
                  key).1.removedFile.erase key }).2) := by
  rw [dirChangedLoop]
  simp only [h, if_true]

theorem dirChangedLoop_cons_absent (env : Env) (dirFiles : List String) (key : String)
    (v : QUrl) (rest : List (String × QUrl)) (s : ImageFileWatcher)
    (h : dirFiles.contains (env.fileName key) = false) :
    dirChangedLoop env dirFiles ((key, v) :: rest) s = dirChangedLoop env dirFiles rest s := by
  rw [dirChangedLoop]
  simp only [h, Bool.false_eq_true, if_false]

theorem dirChangedLoop_cacheFileInfo (env : Env) (dirFiles : List String)
    (l : List (String × QUrl)) (s : ImageFileWatcher) :
    (dirChangedLoop env dirFiles l s).1.cacheFileInfo = s.cacheFileInfo := by
  induction l generalizing s with
  | nil => rfl
  | cons e rest ih =>
    obtain ⟨key, v⟩ := e
    cases h : dirFiles.contains (env.fileName key)
    · rw [dirChangedLoop_cons_absent env dirFiles key v rest s h]; exact ih s
    · rw [dirChangedLoop_cons_listed env dirFiles key v rest s h]
      simp only [ih, onImageFileChanged_cacheFileInfo]

theorem dirChangedLoop_rotateImagePathSet (env : Env) (dirFiles : List String)
    (l : List (String × QUrl)) (s : ImageFileWatcher) :
    (dirChangedLoop env dirFiles l s).1.rotateImagePathSet = s.rotateImagePathSet := by
  induction l generalizing s with
  | nil => rfl
  | cons e rest ih =>
    obtain ⟨key, v⟩ := e
    cases h : dirFiles.contains (env.fileName key)
    · rw [dirChangedLoop_cons_absent env dirFiles key v rest s h]; exact ih s
    · rw [dirChangedLoop_cons_listed env dirFiles key v rest s h]
      simp only [ih, onImageFileChanged_rotateImagePathSet]

/-- The loop erases exactly the visited entries whose file name is listed. -/
theorem dirChangedLoop_removedFile (env : Env) (dirFiles : List String)
    (l : List (String × QUrl)) (s : ImageFileWatcher) :
    (dirChangedLoop env dirFiles l s).1.removedFile =
      s.removedFile.filter
        (fun e => !(dirFiles.contains (env.fileName e.1) && l.any (fun x => x.1 == e.1))) := by
  induction l generalizing s with
  | nil => simp [dirChangedLoop]
  | cons e rest ih =>
    obtain ⟨key, v⟩ := e
    cases h : dirFiles.contains (env.fileName key)
    · rw [dirChangedLoop_cons_absent env dirFiles key v rest s h, ih]
      apply List.filter_congr
      intro x _
      simp only [List.any_cons]
      by_cases hx : key = x.1
      · subst hx; rw [h]; simp
      · have e1 : (key == x.1) = false := by simp [hx]
        rw [e1]; simp
    · rw [dirChangedLoop_cons_listed env dirFiles key v rest s h, ih]
      simp only [onImageFileChanged_erase]
      simp only [PathMap.erase, List.filter_filter]
      apply List.filter_congr
      intro x _
      simp only [List.any_cons]
      by_cases hx : key = x.1
      · subst hx; rw [h]; simp
      · have e1 : (key == x.1) = false := by simp [hx]
        have e2 : (x.1 == key) = false := by simp [Ne.symm hx]
        rw [e1, e2]; simp

/-- After a directory-changed event the pending entries are the former ones
whose file name is not listed. -/
theorem onImageDirChanged_removedFile (env : Env) (dirFiles : List String)
    (s : ImageFileWatcher) (dir : String) :
    (s.onImageDirChanged env dirFiles dir).1.removedFile =
      s.removedFile.filter (fun e => !dirFiles.contains (env.fileName e.1)) := by
  unfold onImageDirChanged
  rw [dirChangedLoop_removedFile]
  apply List.filter_congr
  intro x hx
  have : (s.removedFile.any fun y => y.1 == x.1) = true := by
    simp only [List.any_eq_true, beq_iff_eq]
    exact ⟨x, hx, rfl⟩
  simp [this]

end ImageFileWatcher

/-! ## Facts about the operations used by the invariants -/

namespace PathSet

theorem mem_insert (s : PathSet) (p q : String) :
    q ∈ s.insert p ↔ q ∈ s ∨ q = p := by
  unfold insert
  split
  · rename_i h
    have hp : p ∈ s := by simpa using h
    constructor
    · exact Or.inl
    · rintro (h | rfl)
      · exact h
      · exact hp
  · simp

theorem mem_remove (s : PathSet) (p q : String) :
    q ∈ s.remove p ↔ q ∈ s ∧ q ≠ p := by
  simp [remove]

end PathSet

namespace ImageFileWatcher

theorem foldl_resetAddFile_removedFile (env : Env) (l : List String) (s : ImageFileWatcher) :
    (l.foldl (resetAddFile env) s).removedFile = s.removedFile := by
  induction l generalizing s with
  | nil => rfl
  | cons a rest ih =>
    rw [List.foldl_cons, ih]
    unfold resetAddFile
    dsimp only
    split <;> rfl

theorem foldl_resetAddFile_rotateImagePathSet (env : Env) (l : List String)
    (s : ImageFileWatcher) :
    (l.foldl (resetAddFile env) s).rotateImagePathSet = s.rotateImagePathSet := by
  induction l generalizing s with
  | nil => rfl
  | cons a rest ih =>
    rw [List.foldl_cons, ih]
    unfold resetAddFile
    dsimp only
    split <;> rfl

theorem resetImageFiles_removedFile (env : Env) (s : ImageFileWatcher) (l : List String) :
    (s.resetImageFiles env l).removedFile = [] := by
  unfold resetImageFiles
  cases l with
  | nil => rfl
  | cons first rest =>
    dsimp only
    split
    · rfl
    · split
      · rename_i h; rw [foldl_resetAddFile_removedFile]
      · rw [foldl_resetAddFile_removedFile]

theorem resetImageFiles_rotateImagePathSet (env : Env) (s : ImageFileWatcher)
    (l : List String) :
    (s.resetImageFiles env l).rotateImagePathSet = [] := by
  unfold resetImageFiles
  cases l with
  | nil => rfl
  | cons first rest =>
    dsimp only
    split
    · rfl
    · split
      · rw [foldl_resetAddFile_rotateImagePathSet]
      · rw [foldl_resetAddFile_rotateImagePathSet]

theorem fileRename_removedFile (env : Env) (s : ImageFileWatcher) (oldPath newPath : String) :
    (s.fileRename env oldPath newPath).removedFile = s.removedFile := by
  unfold fileRename
  split <;> rfl

theorem fileRename_rotateImagePathSet (env : Env) (s : ImageFileWatcher)
    (oldPath newPath : String) :
    (s.fileRename env oldPath newPath).rotateImagePathSet = s.rotateImagePathSet := by
  unfold fileRename
  split <;> rfl

/-- A rename never drops a key of `cacheFileInfo`. -/
theorem fileRename_keeps_keys (env : Env) (s : ImageFileWatcher) (oldPath newPath k : String)
    (hk : k ∈ s.cacheFileInfo.keys) : k ∈ (s.fileRename env oldPath newPath).cacheFileInfo.keys := by
  unfold fileRename
  split
  · exact (PathMap.mem_keys_insert _ _ _ _).2 (Or.inl hk)
  · exact hk

/-- The file-changed handler only records tracked paths as pending. -/
theorem onImageFileChanged_removedFile_keys (env : Env) (s : ImageFileWatcher)
    (file k : String) (hk : k ∈ (s.onImageFileChanged env file).1.removedFile.keys) :
    k ∈ s.removedFile.keys ∨ (k = file ∧ k ∈ s.cacheFileInfo.keys) := by
  unfold onImageFileChanged at hk
  split at hk
  · exact Or.inl hk
  · split at hk
    · rename_i hTracked
      dsimp only at hk
      split at hk
      · rcases (PathMap.mem_keys_insert _ _ _ _).1 hk with h | h
        · exact Or.inl h
        · exact Or.inr ⟨h, h ▸ (PathMap.contains_iff_mem_keys _ _).1 hTracked⟩
      · exact Or.inl hk
    · exact Or.inl hk

theorem onImageDirChanged_cacheFileInfo (env : Env) (dirFiles : List String)
    (s : ImageFileWatcher) (dir : String) :
    (s.onImageDirChanged env dirFiles dir).1.cacheFileInfo = s.cacheFileInfo :=
  dirChangedLoop_cacheFileInfo env dirFiles _ s

theorem onImageDirChanged_rotateImagePathSet (env : Env) (dirFiles : List String)
    (s : ImageFileWatcher) (dir : String) :
    (s.onImageDirChanged env dirFiles dir).1.rotateImagePathSet = s.rotateImagePathSet :=
  dirChangedLoop_rotateImagePathSet env dirFiles _ s

theorem onImageDirChanged_removedFile_keys (env : Env) (dirFiles : List String)
    (s : ImageFileWatcher) (dir k : String)
    (hk : k ∈ (s.onImageDirChanged env dirFiles dir).1.removedFile.keys) :
    k ∈ s.removedFile.keys := by
  rw [onImageDirChanged_removedFile] at hk
  simp only [PathMap.keys, List.mem_map, List.mem_filter] at hk ⊢
  obtain ⟨e, ⟨he, _⟩, rfl⟩ := hk
  exact ⟨e, he, rfl⟩

end ImageFileWatcher

/-- In a reachable state every pending path is still a key of `cacheFileInfo`:
the file-changed handler copies the entry into `removedFile` and nothing but a
reset, which empties both maps, removes a key from `cacheFileInfo`. -/
theorem removedFile_tracked_of_reachable {s : ImageFileWatcher} (h : Reachable s) :
    ∀ k, k ∈ s.removedFile.keys → k ∈ s.cacheFileInfo.keys := by
  induction h with
  | init => intro k hk; simp [ImageFileWatcher.init, PathMap.keys] at hk
  | resetImageFiles env filePaths _ _ =>
    intro k hk
    rw [ImageFileWatcher.resetImageFiles_removedFile] at hk
    simp [PathMap.keys] at hk
  | fileRename env oldPath newPath _ ih =>
    intro k hk
    rw [ImageFileWatcher.fileRename_removedFile] at hk
    exact ImageFileWatcher.fileRename_keeps_keys env _ oldPath newPath k (ih k hk)
  | recordRotateImage targetPath _ ih => exact ih
  | clearRotateStatus targetPath _ ih =>
    intro k hk
    unfold ImageFileWatcher.clearRotateStatus at hk ⊢
    split at hk
    · rw [if_pos (by assumption)]; exact ih k hk
    · rw [if_neg (by assumption)]; exact ih k hk
  | onImageFileChanged env file _ ih =>
    intro k hk
    rw [ImageFileWatcher.onImageFileChanged_cacheFileInfo]
    rcases ImageFileWatcher.onImageFileChanged_removedFile_keys env _ file k hk with h | h
    · exact ih k h
    · exact h.2
  | onImageDirChanged env dirFiles dir _ ih =>
    intro k hk
    rw [ImageFileWatcher.onImageDirChanged_cacheFileInfo]
    exact ih k (ImageFileWatcher.onImageDirChanged_removedFile_keys env dirFiles _ dir k hk)

/-! ## What the directory handler adds to the watcher -/

open ImageFileWatcher

/-- C2: a file-changed event for a suppressed path emits nothing and leaves the
watcher, `removedFile` included, as it was, whatever the disk holds and
whether or not the path is tracked. -/
theorem C2_suppressed_event_swallowed (env : Env) (s : ImageFileWatcher) (P : String)
    (hSuppressed : s.rotateImagePathSet.contains P = true) :
    s.onImageFileChanged env P = (s, []) := by
  have hIn : P ∈ s.rotateImagePathSet := by simpa using hSuppressed
  unfold onImageFileChanged
  simp [hIn]

/-- C2 for `/tmp/dir/a.png`, tracked, under rotation and deleted meanwhile. -/
theorem C2_suppressed_event_swallowed_witness :
    (watchingA.recordRotateImage "/tmp/dir/a.png").rotateImagePathSet.contains
        "/tmp/dir/a.png" = true ∧
      (watchingA.recordRotateImage "/tmp/dir/a.png").onImageFileChanged (demoEnv ["/tmp/dir"])
          "/tmp/dir/a.png" =
        (watchingA.recordRotateImage "/tmp/dir/a.png", []) :=
  ⟨by decide,
    C2_suppressed_event_swallowed (demoEnv ["/tmp/dir"])
      (watchingA.recordRotateImage "/tmp/dir/a.png") "/tmp/dir/a.png" (by decide)⟩

/-! ## The watch reconciler: resetting the watch list -/

/-- C3: `resetImageFiles` clears `cacheFileInfo`, `removedFile` and
`rotateImagePathSet` before it tests `isCurrentDir`, so a reset with a first
entry in the directory that is already watched does change the state. Here
`/tmp/dir/a.png` is watched and tracked, the list `["/tmp/dir/a.png"]` lies in
the watched directory, and after the call the file-system watcher is as before
but `cacheFileInfo` is empty, so the next file-changed event for the file is
dropped. -/
theorem C3_redundant_reset_clears_records :
    isCurrentDir (demoEnv ["/tmp/dir", "/tmp/dir/a.png"]) watchingA "/tmp/dir/a.png" = true ∧
      watchingA.cacheFileInfo = [("/tmp/dir/a.png", "file:///tmp/dir/a.png")] ∧
      (watchingA.resetImageFiles (demoEnv ["/tmp/dir", "/tmp/dir/a.png"])
        ["/tmp/dir/a.png"]).fileWatcher = watchingA.fileWatcher ∧
      (watchingA.resetImageFiles (demoEnv ["/tmp/dir", "/tmp/dir/a.png"])
        ["/tmp/dir/a.png"]).cacheFileInfo = [] ∧
      watchingA.resetImageFiles (demoEnv ["/tmp/dir", "/tmp/dir/a.png"])
        ["/tmp/dir/a.png"] ≠ watchingA ∧
      (watchingA.onImageFileChanged (demoEnv ["/tmp/dir", "/tmp/dir/a.png"])
        "/tmp/dir/a.png").2 =
        [.imageFileChanged "/tmp/dir/a.png", .reloadData "file:///tmp/dir/a.png"] ∧
      ((watchingA.resetImageFiles (demoEnv ["/tmp/dir", "/tmp/dir/a.png"])
        ["/tmp/dir/a.png"]).onImageFileChanged (demoEnv ["/tmp/dir", "/tmp/dir/a.png"])
        "/tmp/dir/a.png").2 = [] := by
  decide

/-- C4: `resetImageFiles([])` leaves no watched file, no watched directory and
empties `cacheFileInfo`, `removedFile` and `rotateImagePathSet`, from every
state. -/
theorem C4_reset_empty_clears_everything (env : Env) (s : ImageFileWatcher) :
    (s.resetImageFiles env []).fileWatcher.files = [] ∧
      (s.resetImageFiles env []).fileWatcher.directories = [] ∧
      (s.resetImageFiles env []).cacheFileInfo = [] ∧
      (s.resetImageFiles env []).removedFile = [] ∧
      (s.resetImageFiles env []).rotateImagePathSet = [] := by
  have hSelf : ∀ l : List String, l.filter (fun q => !l.contains q) = [] := by
    intro l
    rw [List.filter_eq_nil_iff]
    intro a ha
    simp [ha]
  have hFiles : ∀ w : QFileSystemWatcher,
      (if (!w.files.isEmpty) = true then w.removePaths w.files else w).files = [] := by
    intro w
    split
    · rw [QFileSystemWatcher.removePaths_files]; exact hSelf _
    · rename_i h
      simpa using h
  have hDirs : ∀ w : QFileSystemWatcher,
      (if (!w.directories.isEmpty) = true then w.removePaths w.directories
        else w).directories = [] := by
    intro w
    split
    · rw [QFileSystemWatcher.removePaths_directories]; exact hSelf _
    · rename_i h
      simpa using h
  have hKeep : ∀ w : QFileSystemWatcher, w.files = [] →
      (if (!w.directories.isEmpty) = true then w.removePaths w.directories
        else w).files = [] := by
    intro w hw
    split
    · rw [QFileSystemWatcher.removePaths_files, hw]; rfl
    · exact hw
  refine ⟨?_, ?_, rfl, rfl, rfl⟩
  · exact hKeep _ (hFiles _)
  · exact hDirs _

/-- C5, the claim as stated fails: on the scenario the two events emit
`imageFileChanged("/tmp/dir/a.png")` twice, not once. -/
theorem C5_scenario_emits_twice :
    notifications "/tmp/dir/a.png"
        ((watchingA.onImageFileChanged (demoEnv ["/tmp/dir"]) "/tmp/dir/a.png").2 ++
          ((watchingA.onImageFileChanged (demoEnv ["/tmp/dir"])
            "/tmp/dir/a.png").1.onImageDirChanged (demoEnv ["/tmp/dir", "/tmp/dir/a.png"])
            ["a.png"] "/tmp/dir").2) = 2 ∧
      ¬ notifications "/tmp/dir/a.png"
        ((watchingA.onImageFileChanged (demoEnv ["/tmp/dir"]) "/tmp/dir/a.png").2 ++
          ((watchingA.onImageFileChanged (demoEnv ["/tmp/dir"])
            "/tmp/dir/a.png").1.onImageDirChanged (demoEnv ["/tmp/dir", "/tmp/dir/a.png"])
            ["a.png"] "/tmp/dir").2) = 1 := by
  decide

/-- C5, amended: with `/tmp/dir/a.png` the only tracked path and nothing
suppressed or pending, the file-changed event for the absent file emits
`imageFileChanged("/tmp/dir/a.png")` once, the directory-changed event that
lists `a.png` emits it once more, which makes two over the sequence, and
`removedFile` is empty afterwards. -/
theorem C5_delete_recreate_two_notifications (env1 env2 : Env) (s : ImageFileWatcher)
    (u : QUrl) (dirFiles : List String) (dir : String)
    (hWatch : s.cacheFileInfo = [("/tmp/dir/a.png", u)])
    (hPending : s.removedFile = [])
    (hFree : s.rotateImagePathSet = [])
    (hGone : env1.fileExists "/tmp/dir/a.png" = false)
    (hListed : dirFiles.contains (env2.fileName "/tmp/dir/a.png") = true) :
    notifications "/tmp/dir/a.png"
        (s.onImageFileChanged env1 "/tmp/dir/a.png").2 = 1 ∧
      notifications "/tmp/dir/a.png"
        ((s.onImageFileChanged env1 "/tmp/dir/a.png").1.onImageDirChanged env2 dirFiles
          dir).2 = 1 ∧
      notifications "/tmp/dir/a.png"
        ((s.onImageFileChanged env1 "/tmp/dir/a.png").2 ++
          ((s.onImageFileChanged env1 "/tmp/dir/a.png").1.onImageDirChanged env2 dirFiles
            dir).2) = 2 ∧
      ((s.onImageFileChanged env1 "/tmp/dir/a.png").1.onImageDirChanged env2 dirFiles
        dir).1.removedFile = [] := by
  obtain ⟨w, cache, removed, rot⟩ := s
  simp only at hWatch hPending hFree
  subst hWatch hPending hFree
  have hStep : onImageFileChanged env1
      { fileWatcher := w, cacheFileInfo := [("/tmp/dir/a.png", u)], removedFile := [],
        rotateImagePathSet := [] } "/tmp/dir/a.png" =
      ({ fileWatcher := w, cacheFileInfo := [("/tmp/dir/a.png", u)],
         removedFile := [("/tmp/dir/a.png", u)], rotateImagePathSet := [] },
       [.imageFileChanged "/tmp/dir/a.png", .reloadData u]) := by
    simp [onImageFileChanged, hGone, PathMap.contains, PathMap.value, PathMap.insert]
  have hDir : onImageDirChanged env2 dirFiles
      { fileWatcher := w, cacheFileInfo := [("/tmp/dir/a.png", u)],
        removedFile := [("/tmp/dir/a.png", u)], rotateImagePathSet := [] } dir =
      ({ fileWatcher := w.addPath env2 "/tmp/dir/a.png",
         cacheFileInfo := [("/tmp/dir/a.png", u)],
         removedFile := [], rotateImagePathSet := [] },
       [.imageFileChanged "/tmp/dir/a.png", .reloadData u]) := by
    unfold onImageDirChanged
    rw [dirChangedLoop_cons_listed env2 dirFiles _ _ _ _ hListed]
    by_cases hE : env2.fileExists "/tmp/dir/a.png" = true
    · simp [onImageFileChanged, hE, PathMap.contains, PathMap.value, PathMap.erase,
        dirChangedLoop]
    · simp [onImageFileChanged, hE, PathMap.contains, PathMap.value, PathMap.erase,
        PathMap.insert, dirChangedLoop]
  rw [hStep, hDir]
  simp [notifications]

/-- C5, amended, on the scenario disk. -/
theorem C5_delete_recreate_two_notifications_witness :
    notifications "/tmp/dir/a.png"
        ((watchingA.onImageFileChanged (demoEnv ["/tmp/dir"]) "/tmp/dir/a.png").2 ++
          ((watchingA.onImageFileChanged (demoEnv ["/tmp/dir"])
            "/tmp/dir/a.png").1.onImageDirChanged (demoEnv ["/tmp/dir", "/tmp/dir/a.png"])
            ["a.png"] "/tmp/dir").2) = 2 ∧
      ((watchingA.onImageFileChanged (demoEnv ["/tmp/dir"])
        "/tmp/dir/a.png").1.onImageDirChanged (demoEnv ["/tmp/dir", "/tmp/dir/a.png"])
        ["a.png"] "/tmp/dir").1.removedFile = [] :=
  have h := C5_delete_recreate_two_notifications (demoEnv ["/tmp/dir"])
    (demoEnv ["/tmp/dir", "/tmp/dir/a.png"]) watchingA "file:///tmp/dir/a.png" ["a.png"]
    "/tmp/dir" (by decide) (by decide) (by decide) (by decide) (by decide)
  ⟨h.2.2.1, h.2.2.2⟩

/-! ## The watch reconciler: invariants -/

/-- C6, the claim as stated fails: after a reset that tracks `/tmp/dir/a.png`
and a file-changed event for it while it is absent, the path is a key of
`cacheFileInfo` and of `removedFile` at once. -/
theorem C6_pending_path_still_tracked :
    Reachable (watchingA.onImageFileChanged (demoEnv ["/tmp/dir"]) "/tmp/dir/a.png").1 ∧
      (watchingA.onImageFileChanged (demoEnv ["/tmp/dir"])
        "/tmp/dir/a.png").1.cacheFileInfo.contains "/tmp/dir/a.png" = true ∧
      (watchingA.onImageFileChanged (demoEnv ["/tmp/dir"])
        "/tmp/dir/a.png").1.removedFile.contains "/tmp/dir/a.png" = true :=
  ⟨Reachable.onImageFileChanged _ _ (Reachable.resetImageFiles _ _ Reachable.init),
    by decide, by decide⟩

/-- C6, amended: in every reachable state the key sets of `cacheFileInfo` and
`removedFile` are disjoint exactly when `removedFile` is empty, because a
pending path stays a key of `cacheFileInfo`. -/
theorem C6_disjoint_iff_nothing_pending (s : ImageFileWatcher) (h : Reachable s) :
    (∀ p, ¬ (s.cacheFileInfo.contains p = true ∧ s.removedFile.contains p = true)) ↔
      s.removedFile = [] := by
  constructor
  · intro hDisjoint
    cases hr : s.removedFile with
    | nil => rfl
    | cons e rest =>
      exfalso
      have hk : e.1 ∈ s.removedFile.keys := by simp [PathMap.keys, hr]
      exact hDisjoint e.1
        ⟨(PathMap.contains_iff_mem_keys _ _).2 (removedFile_tracked_of_reachable h e.1 hk),
          (PathMap.contains_iff_mem_keys _ _).2 hk⟩
  · intro hEmpty p hp
    rw [hEmpty] at hp
    simp [PathMap.contains] at hp

/-- C6, amended, on the state with `/tmp/dir/a.png` pending: the key sets are
not disjoint there and `removedFile` is not empty. -/
theorem C6_disjoint_iff_nothing_pending_witness :
    ((∀ p, ¬ ((watchingA.onImageFileChanged (demoEnv ["/tmp/dir"])
          "/tmp/dir/a.png").1.cacheFileInfo.contains p = true ∧
        (watchingA.onImageFileChanged (demoEnv ["/tmp/dir"])
          "/tmp/dir/a.png").1.removedFile.contains p = true)) ↔
      (watchingA.onImageFileChanged (demoEnv ["/tmp/dir"])
        "/tmp/dir/a.png").1.removedFile = []) ∧
      (watchingA.onImageFileChanged (demoEnv ["/tmp/dir"])
        "/tmp/dir/a.png").1.removedFile ≠ [] :=
  ⟨C6_disjoint_iff_nothing_pending _
      (Reachable.onImageFileChanged _ _ (Reachable.resetImageFiles _ _ Reachable.init)),
    by decide⟩

/-- C7, the claim as stated fails: `recordRotateImage` on the initial watcher,
which tracks nothing, makes the path suppressed. -/
theorem C7_untracked_path_gets_suppressed :
    Reachable (ImageFileWatcher.init.recordRotateImage "/tmp/dir/a.png") ∧
      (ImageFileWatcher.init.recordRotateImage
        "/tmp/dir/a.png").rotateImagePathSet.contains "/tmp/dir/a.png" = true ∧
      (ImageFileWatcher.init.recordRotateImage
        "/tmp/dir/a.png").cacheFileInfo.contains "/tmp/dir/a.png" = false :=
  ⟨Reachable.recordRotateImage _ Reachable.init, by decide, by decide⟩

/-- C7, amended: `recordRotateImage` does not look at `cacheFileInfo`; in every
state reached by a run in which it is only called for a path that is tracked at
that moment, every suppressed path is a key of `cacheFileInfo`. -/
theorem C7_suppressed_tracked_when_recorded_tracked (s : ImageFileWatcher)
    (h : ReachableTrackedRotate s) (p : String)
    (hp : s.rotateImagePathSet.contains p = true) :
    s.cacheFileInfo.contains p = true := by
  have hAll : ∀ q, q ∈ s.rotateImagePathSet → q ∈ s.cacheFileInfo.keys := by
    clear hp
    induction h with
    | init => intro q hq; simp [ImageFileWatcher.init] at hq
    | resetImageFiles env filePaths _ _ =>
      intro q hq
      rw [ImageFileWatcher.resetImageFiles_rotateImagePathSet] at hq
      simp at hq
    | fileRename env oldPath newPath _ ih =>
      intro q hq
      rw [ImageFileWatcher.fileRename_rotateImagePathSet] at hq
      exact ImageFileWatcher.fileRename_keeps_keys env _ oldPath newPath q (ih q hq)
    | recordRotateImage targetPath _ hTracked ih =>
      intro q hq
      rcases (PathSet.mem_insert _ _ _).1 hq with hq | rfl
      · exact ih q hq
      · exact (PathMap.contains_iff_mem_keys _ _).1 hTracked
    | clearRotateStatus targetPath _ ih =>
      intro q hq
      unfold ImageFileWatcher.clearRotateStatus at hq ⊢
      split at hq
      · rw [if_pos (by assumption)]
        exact ih q ((PathSet.mem_remove _ _ _).1 hq).1
      · rw [if_neg (by assumption)]; exact ih q hq
    | onImageFileChanged env file _ ih =>
      intro q hq
      rw [ImageFileWatcher.onImageFileChanged_cacheFileInfo]
      rw [ImageFileWatcher.onImageFileChanged_rotateImagePathSet] at hq
      exact ih q hq
    | onImageDirChanged env dirFiles dir _ ih =>
      intro q hq
      rw [ImageFileWatcher.onImageDirChanged_cacheFileInfo]
      rw [ImageFileWatcher.onImageDirChanged_rotateImagePathSet] at hq
      exact ih q hq
  exact (PathMap.contains_iff_mem_keys _ _).2 (hAll p (by simpa using hp))

/-- C7, amended, on the watcher that tracks `/tmp/dir/a.png` and then records
its rotation. -/
theorem C7_suppressed_tracked_when_recorded_tracked_witness :
    (watchingA.recordRotateImage "/tmp/dir/a.png").rotateImagePathSet.contains
        "/tmp/dir/a.png" = true ∧
      (watchingA.recordRotateImage "/tmp/dir/a.png").cacheFileInfo.contains
        "/tmp/dir/a.png" = true :=
  ⟨by decide,
    C7_suppressed_tracked_when_recorded_tracked _
      (ReachableTrackedRotate.recordRotateImage "/tmp/dir/a.png"
        (ReachableTrackedRotate.resetImageFiles _ _ ReachableTrackedRotate.init) (by decide))
      "/tmp/dir/a.png" (by decide)⟩

/-! ## FileControl: rotation -/

open FileControl

/-- C8: with no rotation pending and `A` on storage that may be written, two
calls `rotateFile(A, 90)` write nothing, the timer is active after them, and
its timeout makes the only `rotateImageFIle` call of the run, for `A` with
angle 180. -/
theorem C8_rotation_coalescing (lib : ImageLib) (s : FileControl) (A : String)
    (hWritable : writeAllowed (lib.getPathType (lib.localPath A)) = true)
    (hIdle : s.m_rotateAngel = 0) :
    writes ((rotateFile lib s A 90).2 ++
        (rotateFile lib (rotateFile lib s A 90).1 A 90).2) = [] ∧
      ∃ r, saveImageTimeout lib (rotateFile lib (rotateFile lib s A 90).1 A 90).1 = some r ∧
        writes ((rotateFile lib s A 90).2 ++
          (rotateFile lib (rotateFile lib s A 90).1 A 90).2 ++ r.2) =
          [(180, lib.localPath A)] := by
  have h180 : (180 : Int).tmod 360 = 180 := by decide
  have h0 : (0 : Int).tmod 360 = 0 := by decide
  have hw90 : wrapInt32 90 = 90 := by decide
  have hw180 : wrapInt32 180 = 180 := by decide
  by_cases hc : s.m_currentPath = lib.localPath A
  · simp [rotateFile, slotRotatePixCurrent, saveImageTimeout, writes, hIdle, hWritable, hc,
      h180, hw90, hw180]
  · cases ht : s.m_tSaveImage <;>
      simp [rotateFile, slotRotatePixCurrent, saveImageTimeout, writes, hIdle, hWritable, hc,
        h180, h0, ht, hw180]

/-- C8 for `/tmp/dir/a.png` on a fresh `FileControl`. -/
theorem C8_rotation_coalescing_witness :
    writes ((rotateFile demoLib ⟨"", 0, false⟩ "/tmp/dir/a.png" 90).2 ++
        (rotateFile demoLib (rotateFile demoLib ⟨"", 0, false⟩ "/tmp/dir/a.png" 90).1
          "/tmp/dir/a.png" 90).2) = [] ∧
      ∃ r, saveImageTimeout demoLib
          (rotateFile demoLib (rotateFile demoLib ⟨"", 0, false⟩ "/tmp/dir/a.png" 90).1
            "/tmp/dir/a.png" 90).1 = some r ∧
        writes ((rotateFile demoLib ⟨"", 0, false⟩ "/tmp/dir/a.png" 90).2 ++
          (rotateFile demoLib (rotateFile demoLib ⟨"", 0, false⟩ "/tmp/dir/a.png" 90).1
            "/tmp/dir/a.png" 90).2 ++ r.2) =
          [(180, "/tmp/dir/a.png")] :=
  C8_rotation_coalescing demoLib ⟨"", 0, false⟩ "/tmp/dir/a.png" (by decide) rfl

/-- C9: when `A` has no rotation pending and may be written, and `B` is another
local path, `rotateFile(A, 90)` followed by `rotateFile(B, 45)` makes the second
call stop the timer, write `A` rotated by 90 while `m_currentPath` is still
`A`, and only then start the timer again; afterwards the pending rotation is
`B` by 45. -/
theorem C9_rotation_flush_order (lib : ImageLib) (s : FileControl) (A B : String)
    (hDistinct : lib.localPath A ≠ lib.localPath B)
    (hWritable : writeAllowed (lib.getPathType (lib.localPath A)) = true)
    (hIdle : s.m_currentPath = lib.localPath A → s.m_rotateAngel = 0) :
    (slotRotatePixCurrent lib (rotateFile lib s A 90).1 true).2 =
        [.timerStop, .rotateImageFIle 90 (lib.localPath A),
          .callSavePicDone (lib.localPath A)] ∧
      (slotRotatePixCurrent lib (rotateFile lib s A 90).1 true).1.m_currentPath =
        lib.localPath A ∧
      (rotateFile lib (rotateFile lib s A 90).1 B 45).2 =
        [.timerStop, .rotateImageFIle 90 (lib.localPath A),
          .callSavePicDone (lib.localPath A), .timerStart 100] ∧
      (rotateFile lib (rotateFile lib s A 90).1 B 45).1 =
        { m_currentPath := lib.localPath B, m_rotateAngel := 45, m_tSaveImage := true } := by
  have h90 : (90 : Int).tmod 360 = 90 := by decide
  have hw90 : wrapInt32 90 = 90 := by decide
  by_cases hc : s.m_currentPath = lib.localPath A
  · simp [rotateFile, slotRotatePixCurrent, hIdle hc, hWritable, hc, h90, hw90, hDistinct]
  · simp [rotateFile, slotRotatePixCurrent, hWritable, hc, h90, hDistinct]

/-- C9 for `/tmp/dir/a.png` and `/tmp/dir/b.png` on a fresh `FileControl`. -/
theorem C9_rotation_flush_order_witness :
    (rotateFile demoLib (rotateFile demoLib ⟨"", 0, false⟩ "/tmp/dir/a.png" 90).1
        "/tmp/dir/b.png" 45).2 =
        [.timerStop, .rotateImageFIle 90 "/tmp/dir/a.png",
          .callSavePicDone "/tmp/dir/a.png", .timerStart 100] ∧
      (rotateFile demoLib (rotateFile demoLib ⟨"", 0, false⟩ "/tmp/dir/a.png" 90).1
        "/tmp/dir/b.png" 45).1 =
        { m_currentPath := "/tmp/dir/b.png", m_rotateAngel := 45, m_tSaveImage := true } :=
  have h := C9_rotation_flush_order demoLib ⟨"", 0, false⟩ "/tmp/dir/a.png" "/tmp/dir/b.png"
    (by decide) (by decide) (fun _ => rfl)
  ⟨h.2.2.1, h.2.2.2⟩

/-! ## The watch reconciler: rename -/

/-- C10: `/tmp/dir/a.png` is tracked with the display identifier
`file:///tmp/dir/a.png` and is renamed to `/tmp/dir/b.png`. After
`fileRename` the old path is still a key of `cacheFileInfo`, and the new path
is mapped to the bare local path `/tmp/dir/b.png`, where a reset that tracks
the same file stores the display identifier `file:///tmp/dir/b.png`; a later
file-changed event for the new path hands that bare path to the image cache. -/
theorem C10_rename_keeps_old_key_and_new_identifier :
    List.lookup "/tmp/dir/a.png" watchingA.cacheFileInfo = some "file:///tmp/dir/a.png" ∧
      (watchingA.fileRename (demoEnv ["/tmp/dir", "/tmp/dir/b.png"]) "/tmp/dir/a.png"
        "/tmp/dir/b.png").cacheFileInfo =
        [("/tmp/dir/a.png", "file:///tmp/dir/a.png"), ("/tmp/dir/b.png", "/tmp/dir/b.png")] ∧
      (watchingA.fileRename (demoEnv ["/tmp/dir", "/tmp/dir/b.png"]) "/tmp/dir/a.png"
        "/tmp/dir/b.png").cacheFileInfo.contains "/tmp/dir/a.png" = true ∧
      List.lookup "/tmp/dir/b.png"
        (watchingA.fileRename (demoEnv ["/tmp/dir", "/tmp/dir/b.png"]) "/tmp/dir/a.png"
          "/tmp/dir/b.png").cacheFileInfo ≠ some "file:///tmp/dir/a.png" ∧
      (watchingA.fileRename (demoEnv ["/tmp/dir", "/tmp/dir/b.png"]) "/tmp/dir/a.png"
        "/tmp/dir/b.png").fileWatcher.files = ["/tmp/dir/b.png"] ∧
      (ImageFileWatcher.init.resetImageFiles (demoEnv ["/tmp/dir", "/tmp/dir/b.png"])
        ["file:///tmp/dir/b.png"]).cacheFileInfo =
        [("/tmp/dir/b.png", "file:///tmp/dir/b.png")] ∧
      ((watchingA.fileRename (demoEnv ["/tmp/dir", "/tmp/dir/b.png"]) "/tmp/dir/a.png"
        "/tmp/dir/b.png").onImageFileChanged (demoEnv ["/tmp/dir", "/tmp/dir/b.png"])
        "/tmp/dir/b.png").2 =
        [.imageFileChanged "/tmp/dir/b.png", .reloadData "/tmp/dir/b.png"] := by
  decide

/-! ## The watch reconciler: suppression over a run -/

namespace ImageFileWatcher

theorem notifications_append (P : String) (a b : List WatcherEffect) :
    notifications P (a ++ b) = notifications P a + notifications P b := by
  simp [notifications, List.count_append]

/-- While `P` is suppressed no file-changed event emits `imageFileChanged(P)`,
whatever path the event is for. -/
theorem onImageFileChanged_silent (env : Env) (s : ImageFileWatcher) (file P : String)
    (hP : s.rotateImagePathSet.contains P = true) :
    notifications P (s.onImageFileChanged env file).2 = 0 := by
  by_cases hf : file = P
  · subst hf
    simp only [onImageFileChanged, hP, if_true]
    rfl
  · have hne : ¬ (WatcherEffect.imageFileChanged file = WatcherEffect.imageFileChanged P) := by
      intro h
      exact hf (WatcherEffect.imageFileChanged.inj h)
    unfold onImageFileChanged
    split
    · rfl
    · split
      · simp [notifications, List.count_cons, hne]
      · rfl

theorem dirChangedLoop_silent (env : Env) (dirFiles : List String)
    (l : List (String × QUrl)) (s : ImageFileWatcher) (P : String)
    (hP : s.rotateImagePathSet.contains P = true) :
    notifications P (dirChangedLoop env dirFiles l s).2 = 0 := by
  induction l generalizing s with
  | nil => rfl
  | cons e rest ih =>
    obtain ⟨key, v⟩ := e
    cases h : dirFiles.contains (env.fileName key)
    · rw [dirChangedLoop_cons_absent env dirFiles key v rest s h]; exact ih s hP
    · rw [dirChangedLoop_cons_listed env dirFiles key v rest s h]
      simp only [notifications_append]
      have h1 := onImageFileChanged_silent env
        { s with fileWatcher := s.fileWatcher.addPath env key } key P hP
      have h2 := ih
        { (onImageFileChanged env
            { s with fileWatcher := s.fileWatcher.addPath env key } key).1 with
          removedFile :=
            (onImageFileChanged env
              { s with fileWatcher := s.fileWatcher.addPath env key } key).1.removedFile.erase
              key }
        (by simpa only [onImageFileChanged_rotateImagePathSet] using hP)
      rw [h1, h2]

end ImageFileWatcher

/-- A call that is neither `clearRotateStatus(P)` nor a reset keeps a suppressed
`P` suppressed and does not emit `imageFileChanged(P)`. -/
theorem WatcherCall.run_keeps_suppressed (c : WatcherCall) (s : ImageFileWatcher) (P : String)
    (hP : s.rotateImagePathSet.contains P = true) (hc : c.unsuppresses P = false) :
    (c.run s).1.rotateImagePathSet.contains P = true ∧ notifications P (c.run s).2 = 0 := by
  have hIn : P ∈ s.rotateImagePathSet := by simpa using hP
  cases c with
  | resetImageFiles env filePaths => simp [WatcherCall.unsuppresses] at hc
  | fileRename env oldPath newPath =>
    refine ⟨?_, rfl⟩
    show (s.fileRename env oldPath newPath).rotateImagePathSet.contains P = true
    rw [ImageFileWatcher.fileRename_rotateImagePathSet]; exact hP
  | recordRotateImage targetPath =>
    refine ⟨?_, rfl⟩
    have : P ∈ (s.recordRotateImage targetPath).rotateImagePathSet :=
      (PathSet.mem_insert _ _ _).2 (Or.inl hIn)
    simpa using this
  | clearRotateStatus targetPath =>
    refine ⟨?_, rfl⟩
    have hne : P ≠ targetPath := by
      intro h
      simp [WatcherCall.unsuppresses, h] at hc
    show (s.clearRotateStatus targetPath).rotateImagePathSet.contains P = true
    unfold ImageFileWatcher.clearRotateStatus
    split
    · have : P ∈ PathSet.remove s.rotateImagePathSet targetPath :=
        (PathSet.mem_remove _ _ _).2 ⟨hIn, hne⟩
      simpa using this
    · exact hP
  | onImageFileChanged env file =>
    refine ⟨?_, ImageFileWatcher.onImageFileChanged_silent env s file P hP⟩
    show (s.onImageFileChanged env file).1.rotateImagePathSet.contains P = true
    rw [ImageFileWatcher.onImageFileChanged_rotateImagePathSet]; exact hP
  | onImageDirChanged env dirFiles dir =>
    refine ⟨?_, ImageFileWatcher.dirChangedLoop_silent env dirFiles _ s P hP⟩
    show (s.onImageDirChanged env dirFiles dir).1.rotateImagePathSet.contains P = true
    rw [ImageFileWatcher.onImageDirChanged_rotateImagePathSet]; exact hP

theorem runCalls_keeps_suppressed (calls : List WatcherCall) (s : ImageFileWatcher)
    (P : String) (hP : s.rotateImagePathSet.contains P = true)
    (hKept : ∀ c ∈ calls, c.unsuppresses P = false) :
    (runCalls calls s).1.rotateImagePathSet.contains P = true ∧
      notifications P (runCalls calls s).2 = 0 := by
  induction calls generalizing s with
  | nil => exact ⟨hP, rfl⟩
  | cons c rest ih =>
    have h1 := WatcherCall.run_keeps_suppressed c s P hP (hKept c (List.mem_cons_self _ _))
    have h2 := ih (c.run s).1 h1.1 (fun d hd => hKept d (List.mem_cons_of_mem _ hd))
    refine ⟨h2.1, ?_⟩
    show notifications P ((c.run s).2 ++ (runCalls rest (c.run s).1).2) = 0
    rw [ImageFileWatcher.notifications_append, h1.2, h2.2]

/-- C11: when `oldPath` is not a key of `cacheFileInfo`,
`fileRename(oldPath, newPath)` leaves the whole watcher as it was: the watched
files and directories, `cacheFileInfo` (no entry for `newPath` is added),
`removedFile` and `rotateImagePathSet`. -/
theorem C11_rename_untracked_noop (env : Env) (s : ImageFileWatcher) (oldPath newPath : String)
    (hUntracked : s.cacheFileInfo.contains oldPath = false) :
    s.fileRename env oldPath newPath = s := by
  unfold fileRename
  simp [hUntracked]

/-- C11 for the untracked `/tmp/dir/b.png` on the watcher of `/tmp/dir/a.png`. -/
theorem C11_rename_untracked_noop_witness :
    watchingA.cacheFileInfo.contains "/tmp/dir/b.png" = false ∧
      watchingA.fileRename (demoEnv ["/tmp/dir", "/tmp/dir/c.png"]) "/tmp/dir/b.png"
        "/tmp/dir/c.png" = watchingA :=
  ⟨by decide,
    C11_rename_untracked_noop (demoEnv ["/tmp/dir", "/tmp/dir/c.png"]) watchingA
      "/tmp/dir/b.png" "/tmp/dir/c.png" (by decide)⟩

/-- C12: after `recordRotateImage(P)`, every run of calls and events that
contains neither `clearRotateStatus(P)` nor a reset, in particular any number
of file-changed events for `P` and any directory-changed events, emits no
`imageFileChanged(P)` and leaves `P` suppressed. `clearRotateStatus(P)` ends
the suppression: from every state, `P` is not suppressed after it, every other
path is suppressed exactly if it was, and nothing else changes; on a state
where `P` is not suppressed it changes nothing at all. A reset empties the
suppressed set. -/
theorem C12_suppression_level_set (s : ImageFileWatcher) (P : String)
    (calls : List WatcherCall) (hKept : ∀ c ∈ calls, c.unsuppresses P = false) :
    notifications P (runCalls calls (s.recordRotateImage P)).2 = 0 ∧
      (runCalls calls (s.recordRotateImage P)).1.rotateImagePathSet.contains P = true ∧
      ((runCalls calls (s.recordRotateImage P)).1.clearRotateStatus
        P).rotateImagePathSet.contains P = false ∧
      (∀ t : ImageFileWatcher,
        (t.clearRotateStatus P).rotateImagePathSet.contains P = false ∧
          (∀ q, q ≠ P →
            (t.clearRotateStatus P).rotateImagePathSet.contains q =
              t.rotateImagePathSet.contains q) ∧
          (t.clearRotateStatus P).fileWatcher = t.fileWatcher ∧
          (t.clearRotateStatus P).cacheFileInfo = t.cacheFileInfo ∧
          (t.clearRotateStatus P).removedFile = t.removedFile) ∧
      (∀ t : ImageFileWatcher, t.rotateImagePathSet.contains P = false →
        t.clearRotateStatus P = t) ∧
      (∀ (t : ImageFileWatcher) (env : Env) (filePaths : List String),
        (t.resetImageFiles env filePaths).rotateImagePathSet = []) := by
  have hP : (s.recordRotateImage P).rotateImagePathSet.contains P = true := by
    have : P ∈ (s.recordRotateImage P).rotateImagePathSet :=
      (PathSet.mem_insert _ _ _).2 (Or.inr rfl)
    simpa using this
  have h := runCalls_keeps_suppressed calls _ P hP hKept
  have hClear : ∀ t : ImageFileWatcher,
      (t.clearRotateStatus P).rotateImagePathSet.contains P = false ∧
        (∀ q, q ≠ P →
          (t.clearRotateStatus P).rotateImagePathSet.contains q =
            t.rotateImagePathSet.contains q) ∧
        (t.clearRotateStatus P).fileWatcher = t.fileWatcher ∧
        (t.clearRotateStatus P).cacheFileInfo = t.cacheFileInfo ∧
        (t.clearRotateStatus P).removedFile = t.removedFile := by
    intro t
    cases ht : t.rotateImagePathSet.contains P
    · have hSame : t.clearRotateStatus P = t := by
        simp only [clearRotateStatus, ht, Bool.false_eq_true, if_false]
      rw [hSame]
      exact ⟨ht, fun _ _ => rfl, rfl, rfl, rfl⟩
    · have hEq : t.clearRotateStatus P =
          { t with rotateImagePathSet := PathSet.remove t.rotateImagePathSet P } := by
        simp only [clearRotateStatus, ht, if_true]
      rw [hEq]
      refine ⟨?_, ?_, rfl, rfl, rfl⟩
      · simp [PathSet.remove]
      · intro q hq
        simp [PathSet.remove, hq]
  refine ⟨h.2, h.1, (hClear _).1, hClear, ?_, ?_⟩
  · intro t ht
    simp only [clearRotateStatus, ht, Bool.false_eq_true, if_false]
  · intro t env filePaths
    exact resetImageFiles_rotateImagePathSet env t filePaths

/-- C12 for `/tmp/dir/a.png`: three file-changed events while the file is
absent and a directory-changed event that lists it again emit nothing for it
and leave it suppressed, and `clearRotateStatus` then ends the suppression. -/
theorem C12_suppression_level_set_witness :
    notifications "/tmp/dir/a.png"
        (runCalls
          [.onImageFileChanged (demoEnv ["/tmp/dir"]) "/tmp/dir/a.png",
            .onImageFileChanged (demoEnv ["/tmp/dir"]) "/tmp/dir/a.png",
            .onImageFileChanged (demoEnv ["/tmp/dir"]) "/tmp/dir/a.png",
            .onImageDirChanged (demoEnv ["/tmp/dir", "/tmp/dir/a.png"]) ["a.png"] "/tmp/dir"]
          (watchingA.recordRotateImage "/tmp/dir/a.png")).2 = 0 ∧
      (runCalls
          [.onImageFileChanged (demoEnv ["/tmp/dir"]) "/tmp/dir/a.png",
            .onImageFileChanged (demoEnv ["/tmp/dir"]) "/tmp/dir/a.png",
            .onImageFileChanged (demoEnv ["/tmp/dir"]) "/tmp/dir/a.png",
            .onImageDirChanged (demoEnv ["/tmp/dir", "/tmp/dir/a.png"]) ["a.png"] "/tmp/dir"]
          (watchingA.recordRotateImage "/tmp/dir/a.png")).1.rotateImagePathSet.contains
        "/tmp/dir/a.png" = true ∧
      ((runCalls
          [.onImageFileChanged (demoEnv ["/tmp/dir"]) "/tmp/dir/a.png",
            .onImageFileChanged (demoEnv ["/tmp/dir"]) "/tmp/dir/a.png",
            .onImageFileChanged (demoEnv ["/tmp/dir"]) "/tmp/dir/a.png",
            .onImageDirChanged (demoEnv ["/tmp/dir", "/tmp/dir/a.png"]) ["a.png"] "/tmp/dir"]
          (watchingA.recordRotateImage "/tmp/dir/a.png")).1.clearRotateStatus
        "/tmp/dir/a.png").rotateImagePathSet.contains "/tmp/dir/a.png" = false :=
  have h := C12_suppression_level_set watchingA "/tmp/dir/a.png"
    [.onImageFileChanged (demoEnv ["/tmp/dir"]) "/tmp/dir/a.png",
      .onImageFileChanged (demoEnv ["/tmp/dir"]) "/tmp/dir/a.png",
      .onImageFileChanged (demoEnv ["/tmp/dir"]) "/tmp/dir/a.png",
      .onImageDirChanged (demoEnv ["/tmp/dir", "/tmp/dir/a.png"]) ["a.png"] "/tmp/dir"]
    (by
      intro c hc
      simp only [List.mem_cons, List.mem_singleton, List.not_mem_nil, or_false] at hc
      rcases hc with h | h | h | h <;> subst h <;> rfl)
  ⟨h.1, h.2.1, h.2.2.1⟩

/-! ## The watch reconciler: what the two handlers do in every state -/

/-- C14: a file-changed event for `P` emits `imageFileChanged(P)` exactly once
when `P` is not suppressed and is a key of `cacheFileInfo`, whether or not `P`
exists on disk, and emits nothing and leaves the watcher unchanged when `P` is
not a key of `cacheFileInfo`. -/
theorem C14_file_changed_notifies (env : Env) (s : ImageFileWatcher) (P : String) :
    (s.rotateImagePathSet.contains P = false → s.cacheFileInfo.contains P = true →
        (s.onImageFileChanged env P).2 =
            [.imageFileChanged P, .reloadData (s.cacheFileInfo.value P)] ∧
          notifications P (s.onImageFileChanged env P).2 = 1) ∧
      (s.cacheFileInfo.contains P = false → s.onImageFileChanged env P = (s, [])) := by
  constructor
  · intro hFree hTracked
    have hEff : (s.onImageFileChanged env P).2 =
        [.imageFileChanged P, .reloadData (s.cacheFileInfo.value P)] := by
      simp only [onImageFileChanged, hFree, hTracked, Bool.false_eq_true, if_false, if_true]
    refine ⟨hEff, ?_⟩
    rw [hEff]
    simp [notifications]
  · intro hUntracked
    unfold onImageFileChanged
    split
    · rfl
    · simp only [hUntracked, Bool.false_eq_true, if_false]

/-- C14 on the watcher of `/tmp/dir/a.png`: one notification for the tracked
file while it is absent, none for the untracked `/tmp/dir/b.png`. -/
theorem C14_file_changed_notifies_witness :
    notifications "/tmp/dir/a.png"
        (watchingA.onImageFileChanged (demoEnv ["/tmp/dir"]) "/tmp/dir/a.png").2 = 1 ∧
      watchingA.onImageFileChanged (demoEnv ["/tmp/dir", "/tmp/dir/b.png"]) "/tmp/dir/b.png" =
        (watchingA, []) :=
  ⟨((C14_file_changed_notifies (demoEnv ["/tmp/dir"]) watchingA "/tmp/dir/a.png").1
      (by decide) (by decide)).2,
    (C14_file_changed_notifies (demoEnv ["/tmp/dir", "/tmp/dir/b.png"]) watchingA
      "/tmp/dir/b.png").2 (by decide)⟩

/-- C19: after a directory-changed event `removedFile` holds exactly the former
entries whose file name is not in the listing, in the former order and with
the former display identifiers; an entry whose file name is listed is gone,
in every state, suppressed paths and re-inserted keys included. -/
theorem C19_dir_changed_reconciliation (env : Env) (dirFiles : List String)
    (s : ImageFileWatcher) (dir : String) :
    (s.onImageDirChanged env dirFiles dir).1.removedFile =
        s.removedFile.filter (fun e => !dirFiles.contains (env.fileName e.1)) ∧
      ∀ k u, (k, u) ∈ (s.onImageDirChanged env dirFiles dir).1.removedFile ↔
        (k, u) ∈ s.removedFile ∧ dirFiles.contains (env.fileName k) = false := by
  have h := onImageDirChanged_removedFile env dirFiles s dir
  refine ⟨h, ?_⟩
  intro k u
  rw [h, List.mem_filter]
  simp

/-! ## The display list model -/

/-- The scan either finds nothing, and the value does not occur, or stops at
the first occurrence: the list splits there and the result is its position. -/
theorem indexOfFrom_spec (l : List QUrl) (u : QUrl) (i : Nat) :
    (u ∉ l ∧ indexOfFrom l u i = -1) ∨
      ∃ l₁ l₂, l = l₁ ++ u :: l₂ ∧ u ∉ l₁ ∧ indexOfFrom l u i = ((i + l₁.length : Nat) : Int) := by
  induction l generalizing i with
  | nil => exact Or.inl ⟨by simp, rfl⟩
  | cons x rest ih =>
    by_cases hx : x = u
    · subst hx
      refine Or.inr ⟨[], rest, rfl, by simp, ?_⟩
      simp [indexOfFrom]
    · have hb : (x == u) = false := by simp [hx]
      rcases ih (i + 1) with ⟨hn, he⟩ | ⟨l₁, l₂, hl, hn, he⟩
      · refine Or.inl ⟨?_, ?_⟩
        · simp only [List.mem_cons, not_or]
          exact ⟨fun h => hx h.symm, hn⟩
        · simp only [indexOfFrom, hb, Bool.false_eq_true, if_false]
          exact he
      · refine Or.inr ⟨x :: l₁, l₂, by simp [hl], ?_, ?_⟩
        · simp only [List.mem_cons, not_or]
          exact ⟨fun h => hx h.symm, hn⟩
        · simp only [indexOfFrom, hb, Bool.false_eq_true, if_false, he, List.length_cons]
          congr 1
          omega

theorem indexOfFrom_eq_neg_one_iff (l : List QUrl) (u : QUrl) :
    indexOfFrom l u 0 = -1 ↔ u ∉ l := by
  rcases indexOfFrom_spec l u 0 with ⟨hn, he⟩ | ⟨l₁, l₂, hl, _, he⟩
  · exact ⟨fun _ => hn, fun _ => he⟩
  · constructor
    · intro h
      rw [he] at h
      omega
    · intro h
      exact absurd (by simp [hl]) h

/-- The position the scan returns is the first one that holds the value. -/
theorem indexOfFrom_eq_iff_first (l : List QUrl) (u : QUrl) (i : Nat) :
    indexOfFrom l u 0 = (i : Int) ↔ l[i]? = some u ∧ ∀ j, j < i → l[j]? ≠ some u := by
  rcases indexOfFrom_spec l u 0 with ⟨hn, he⟩ | ⟨l₁, l₂, hl, hn, he⟩
  · constructor
    · intro h
      rw [he] at h
      omega
    · rintro ⟨h, _⟩
      exact absurd (List.getElem?_mem h) hn
  · have hAt : l[l₁.length]? = some u := by
      rw [hl, List.getElem?_append_right (Nat.le_refl _)]
      simp
    have hBefore : ∀ j, j < l₁.length → l[j]? ≠ some u := by
      intro j hj h
      rw [hl, List.getElem?_append_left hj] at h
      exact hn (List.getElem?_mem h)
    constructor
    · intro h
      rw [he] at h
      have hi : i = l₁.length := by omega
      subst hi
      exact ⟨hAt, hBefore⟩
    · rintro ⟨h, hmin⟩
      rw [he]
      have h1 : ¬ l₁.length < i := fun hlt => hmin _ hlt hAt
      have h2 : ¬ i < l₁.length := fun hlt => hBefore _ hlt h
      have hi : i = l₁.length := by omega
      subst hi
      simp

/-- C15, the claim as stated fails for the empty URL: it is at row 0 of the
list, and `indexForImagePath` answers -1. -/
theorem C15_empty_url_not_found :
    (ImageSourceModel.mk ["", "file:///tmp/dir/a.png"]).imageUrlList[0]? = some "" ∧
      (ImageSourceModel.mk ["", "file:///tmp/dir/a.png"]).indexForImagePath "" = -1 := by
  decide

/-- C15, amended: for a URL `u` that is not empty, `indexForImagePath(u)` is the
smallest index that holds `u`, and it is -1 exactly when `u` does not occur in
the list; for the empty URL it is -1 whatever the list holds. -/
theorem C15_index_lookup (m : ImageSourceModel) (u : QUrl) :
    (u ≠ "" →
        (m.indexForImagePath u = -1 ↔ u ∉ m.imageUrlList) ∧
          ∀ i : Nat, m.indexForImagePath u = (i : Int) ↔
            m.imageUrlList[i]? = some u ∧ ∀ j, j < i → m.imageUrlList[j]? ≠ some u) ∧
      (u = "" → m.indexForImagePath u = -1) := by
  constructor
  · intro hu
    have hE : u.isEmpty = false := by
      rw [Bool.eq_false_iff]
      intro h
      exact hu ((String.isEmpty_iff u).1 h)
    have hEq : m.indexForImagePath u = indexOfFrom m.imageUrlList u 0 := by
      simp only [ImageSourceModel.indexForImagePath, hE, Bool.false_eq_true, if_false]
    rw [hEq]
    exact ⟨indexOfFrom_eq_neg_one_iff _ _, fun i => indexOfFrom_eq_iff_first _ _ i⟩
  · intro hu
    subst hu
    rfl

/-- C15, amended, on a list that holds `file:///tmp/dir/b.png` twice. -/
theorem C15_index_lookup_witness :
    (ImageSourceModel.mk ["file:///tmp/dir/a.png", "file:///tmp/dir/b.png",
        "file:///tmp/dir/b.png"]).indexForImagePath "file:///tmp/dir/b.png" = 1 ∧
      (ImageSourceModel.mk ["file:///tmp/dir/a.png", "file:///tmp/dir/b.png",
        "file:///tmp/dir/b.png"]).indexForImagePath "" = -1 :=
  ⟨(((C15_index_lookup
        (ImageSourceModel.mk ["file:///tmp/dir/a.png", "file:///tmp/dir/b.png",
          "file:///tmp/dir/b.png"]) "file:///tmp/dir/b.png").1 (by decide)).2 1).2
      (by decide),
    (C15_index_lookup
      (ImageSourceModel.mk ["file:///tmp/dir/a.png", "file:///tmp/dir/b.png",
        "file:///tmp/dir/b.png"]) "").2 rfl⟩

theorem eraseIdx_at_split (l₁ l₂ : List QUrl) (u : QUrl) :
    (l₁ ++ u :: l₂).eraseIdx l₁.length = l₁ ++ l₂ := by
  induction l₁ with
  | nil => rfl
  | cons x rest ih => simp [List.eraseIdx, ih]

theorem erase_at_split (l₁ l₂ : List QUrl) (u : QUrl) (hn : u ∉ l₁) :
    (l₁ ++ u :: l₂).erase u = l₁ ++ l₂ := by
  induction l₁ with
  | nil => simp
  | cons x rest ih =>
    simp only [List.mem_cons, not_or] at hn
    have hb : (x == u) = false := by simp [Ne.symm hn.1]
    simp only [List.cons_append, List.erase_cons, hb, Bool.false_eq_true, if_false, ih hn.2]

/-- C16: `removeImage(u)` leaves the list and emits nothing when `u` does not
occur in it; otherwise the list splits at the first occurrence of `u` and the
result is the part before it followed by the part after it, one element
shorter, announced as the removal of that one row. In both cases the result is
the list with the first occurrence of `u` erased. -/
theorem C16_remove_image (m : ImageSourceModel) (u : QUrl) :
    (m.removeImage u).1.imageUrlList = m.imageUrlList.erase u ∧
      (u ∉ m.imageUrlList → m.removeImage u = (m, [])) ∧
      (u ∈ m.imageUrlList →
        ∃ l₁ l₂, m.imageUrlList = l₁ ++ u :: l₂ ∧ u ∉ l₁ ∧
          (m.removeImage u).1.imageUrlList = l₁ ++ l₂ ∧
          (m.removeImage u).1.imageUrlList.length + 1 = m.imageUrlList.length ∧
          (m.removeImage u).2 = [.rowsRemoved l₁.length l₁.length]) := by
  rcases indexOfFrom_spec m.imageUrlList u 0 with ⟨hn, he⟩ | ⟨l₁, l₂, hl, hn, he⟩
  · have hEq : m.removeImage u = (m, []) := by
      simp [ImageSourceModel.removeImage, he]
    refine ⟨?_, fun _ => hEq, fun h => absurd h hn⟩
    rw [hEq, List.erase_of_not_mem hn]
  · have hne : ((-1 : Int) != ((0 + l₁.length : Nat) : Int)) = true := by
      simp only [bne_iff_ne, ne_eq]
      omega
    have hEq : m.removeImage u =
        ({ imageUrlList := l₁ ++ l₂ }, [.rowsRemoved l₁.length l₁.length]) := by
      simp only [ImageSourceModel.removeImage, he, hne, if_true]
      have ht : (((0 + l₁.length : Nat) : Int)).toNat = l₁.length := by simp
      rw [ht, hl, eraseIdx_at_split]
      simp
    refine ⟨?_, ?_, ?_⟩
    · rw [hEq, hl, erase_at_split l₁ l₂ u hn]
    · intro h
      exact absurd (by simp [hl]) h
    · intro _
      refine ⟨l₁, l₂, hl, hn, ?_, ?_, ?_⟩
      · rw [hEq]
      · rw [hEq, hl]
        simp
        omega
      · rw [hEq]

/-- C16 on a list that holds `file:///tmp/dir/b.png` twice: the first one goes. -/
theorem C16_remove_image_witness :
    (ImageSourceModel.removeImage
        ⟨["file:///tmp/dir/a.png", "file:///tmp/dir/b.png", "file:///tmp/dir/c.png",
          "file:///tmp/dir/b.png"]⟩ "file:///tmp/dir/b.png").1.imageUrlList =
        ["file:///tmp/dir/a.png", "file:///tmp/dir/c.png", "file:///tmp/dir/b.png"] ∧
      ImageSourceModel.removeImage ⟨["file:///tmp/dir/a.png"]⟩ "file:///tmp/dir/b.png" =
        (⟨["file:///tmp/dir/a.png"]⟩, []) :=
  ⟨(C16_remove_image
      ⟨["file:///tmp/dir/a.png", "file:///tmp/dir/b.png", "file:///tmp/dir/c.png",
        "file:///tmp/dir/b.png"]⟩ "file:///tmp/dir/b.png").1.trans (by decide),
    (C16_remove_image ⟨["file:///tmp/dir/a.png"]⟩ "file:///tmp/dir/b.png").2.1 (by decide)⟩

/-- C17: `setData` on row `i` (column 0 of this model) with the image-URL role
returns true and replaces position `i` by the value when `i` is a row of the
list: the length and every other position are as before, the row is announced
by `dataChanged`, and `data` on that row then returns the value. For a row out
of range, or for any other role on any index, it returns false, leaves the
list and emits nothing. -/
theorem C17_set_data (types : Types) (m : ImageSourceModel) (i : Int) (v : QUrl)
    (role : Int) :
    (0 ≤ i → i < m.imageUrlList.length →
        m.setData types ⟨i, 0, true⟩ v types.ImageUrlRole =
            (true, ⟨m.imageUrlList.set i.toNat v⟩, [.dataChanged i]) ∧
          (m.imageUrlList.set i.toNat v).length = m.imageUrlList.length ∧
          (∀ j : Nat, j ≠ i.toNat →
            (m.imageUrlList.set i.toNat v)[j]? = m.imageUrlList[j]?) ∧
          ImageSourceModel.data types ⟨m.imageUrlList.set i.toNat v⟩ ⟨i, 0, true⟩
            types.ImageUrlRole = some v) ∧
      (¬ (0 ≤ i ∧ i < m.imageUrlList.length) →
        m.setData types ⟨i, 0, true⟩ v role = (false, m, [])) ∧
      (role ≠ types.ImageUrlRole →
        ∀ index, m.setData types index v role = (false, m, [])) := by
  refine ⟨?_, ?_, ?_⟩
  · intro h0 hlt
    have hlt2 : i.toNat < m.imageUrlList.length := by omega
    have hCheck : m.checkIndex ⟨i, 0, true⟩ = true := by
      simp [ImageSourceModel.checkIndex, ImageSourceModel.rowCount, h0, hlt]
    have hCheck2 : ImageSourceModel.checkIndex ⟨m.imageUrlList.set i.toNat v⟩ ⟨i, 0, true⟩ =
        true := by
      simp [ImageSourceModel.checkIndex, ImageSourceModel.rowCount, h0, hlt]
    refine ⟨?_, by simp, ?_, ?_⟩
    · simp [ImageSourceModel.setData, hCheck]
    · intro j hj
      exact List.getElem?_set_ne (Ne.symm hj)
    · simp [ImageSourceModel.data, hCheck2, hlt2]
  · intro hOut
    have hCheck : m.checkIndex ⟨i, 0, true⟩ = false := by
      simp only [ImageSourceModel.checkIndex, ImageSourceModel.rowCount, Bool.true_and,
        Bool.and_eq_false_imp, Bool.and_eq_true, decide_eq_true_eq, decide_eq_false_iff_not]
      intro h
      exact absurd ⟨h.1.1, h.2⟩ hOut
    simp [ImageSourceModel.setData, hCheck]
  · intro hRole index
    unfold ImageSourceModel.setData
    split
    · rfl
    · have hb : (role == types.ImageUrlRole) = false := by simp [hRole]
      simp only [hb, Bool.false_eq_true, if_false]

/-- C17 on a list of three: row 1 is replaced, row 3 and a foreign role are
refused. -/
theorem C17_set_data_witness :
    ImageSourceModel.setData demoTypes
        ⟨["file:///tmp/dir/a.png", "file:///tmp/dir/b.png", "file:///tmp/dir/c.png"]⟩
        ⟨1, 0, true⟩ "file:///tmp/dir/d.png" 257 =
        (true, ⟨["file:///tmp/dir/a.png", "file:///tmp/dir/d.png", "file:///tmp/dir/c.png"]⟩,
          [.dataChanged 1]) ∧
      ImageSourceModel.setData demoTypes
        ⟨["file:///tmp/dir/a.png", "file:///tmp/dir/b.png", "file:///tmp/dir/c.png"]⟩
        ⟨3, 0, true⟩ "file:///tmp/dir/d.png" 257 =
        (false,
          ⟨["file:///tmp/dir/a.png", "file:///tmp/dir/b.png", "file:///tmp/dir/c.png"]⟩, []) ∧
      ImageSourceModel.setData demoTypes
        ⟨["file:///tmp/dir/a.png", "file:///tmp/dir/b.png", "file:///tmp/dir/c.png"]⟩
        ⟨1, 0, true⟩ "file:///tmp/dir/d.png" 0 =
        (false,
          ⟨["file:///tmp/dir/a.png", "file:///tmp/dir/b.png", "file:///tmp/dir/c.png"]⟩, []) :=
  have h := C17_set_data demoTypes
    ⟨["file:///tmp/dir/a.png", "file:///tmp/dir/b.png", "file:///tmp/dir/c.png"]⟩
  ⟨((h 1 "file:///tmp/dir/d.png" 257).1 (by decide) (by decide)).1,
    (h 3 "file:///tmp/dir/d.png" 257).2.1 (by decide),
    (h 1 "file:///tmp/dir/d.png" 0).2.2 (by decide) ⟨1, 0, true⟩⟩

/-! ## FileControl: rename on disk -/

/-- C18: `slotFileReName` returns true exactly when the source file exists and
the rename call succeeds; when it returns false the watcher is as before
(`fileRename` was not called) and no `imageRenamed` is emitted, and when it
returns true the watcher went through `fileRename` and `imageRenamed` is
emitted once. -/
theorem C18_rename_failure_atomic (lib : ImageLib) (d : RenameDisk) (w : ImageFileWatcher)
    (name filepath : String) (isSuffix : Bool) :
    ((slotFileReName lib d w name filepath isSuffix).1 = true ↔
        d.fileExists (lib.localPath filepath) = true ∧
          d.rename (lib.localPath filepath)
            (newName d name (lib.localPath filepath) isSuffix) = true) ∧
      ((slotFileReName lib d w name filepath isSuffix).1 = false →
        (slotFileReName lib d w name filepath isSuffix).2.1 = w ∧
          (slotFileReName lib d w name filepath isSuffix).2.2 = []) ∧
      ((slotFileReName lib d w name filepath isSuffix).1 = true →
        (slotFileReName lib d w name filepath isSuffix).2.1 =
            w.fileRename d.after (lib.localPath filepath)
              (newName d name (lib.localPath filepath) isSuffix) ∧
          (slotFileReName lib d w name filepath isSuffix).2.2 =
            [.imageRenamed (lib.localPath filepath)
              (newName d name (lib.localPath filepath) isSuffix)]) := by
  cases hE : d.fileExists (lib.localPath filepath)
  · simp [slotFileReName, hE]
  · cases hR : d.rename (lib.localPath filepath)
        (newName d name (lib.localPath filepath) isSuffix)
    · simp [slotFileReName, hE, hR]
    · simp [slotFileReName, hE, hR]

/-- C18 on the rename disk: renaming `/tmp/dir/a.png` to the taken name `b`
fails and leaves the watcher, renaming a missing file fails, renaming to `c`
succeeds. -/
theorem C18_rename_failure_atomic_witness :
    slotFileReName demoLib demoRenameDisk watchingA "b" "/tmp/dir/a.png" false =
        (false, watchingA, []) ∧
      slotFileReName demoLib demoRenameDisk watchingA "c" "/tmp/dir/x.png" false =
        (false, watchingA, []) ∧
      (slotFileReName demoLib demoRenameDisk watchingA "c" "/tmp/dir/a.png" false).1 = true :=
  have hb := C18_rename_failure_atomic demoLib demoRenameDisk watchingA "b" "/tmp/dir/a.png"
    false
  have hx := C18_rename_failure_atomic demoLib demoRenameDisk watchingA "c" "/tmp/dir/x.png"
    false
  have hc := C18_rename_failure_atomic demoLib demoRenameDisk watchingA "c" "/tmp/dir/a.png"
    false
  ⟨Prod.ext (by decide) (Prod.ext (hb.2.1 (by decide)).1 (hb.2.1 (by decide)).2),
    Prod.ext (by decide) (Prod.ext (hx.2.1 (by decide)).1 (hx.2.1 (by decide)).2),
    hc.1.2 ⟨by decide, by decide⟩⟩

/-! ## FileControl: the accumulated angle -/

theorem wrapInt32_wrap_add (x y : Int) :
    wrapInt32 (wrapInt32 x + y) = wrapInt32 (x + y) := by
  unfold wrapInt32
  omega

theorem wrapInt32_of_range (x : Int) (h1 : -2147483648 ≤ x) (h2 : x < 2147483648) :
    wrapInt32 x = x := by
  unfold wrapInt32
  omega

theorem tmod_360_gt (a : Int) : -360 < a.tmod 360 := by
  cases a with
  | ofNat n =>
    have h : 0 ≤ (Int.ofNat n).tmod 360 := Int.tmod_nonneg 360 (Int.ofNat_nonneg n)
    omega
  | negSucc n =>
    show -360 < -(((n + 1) % 360 : Nat) : Int)
    omega

namespace FileControl

theorem writes_append (a b : List FileEffect) : writes (a ++ b) = writes a ++ writes b := by
  induction a with
  | nil => rfl
  | cons e rest ih => cases e <;> simp [writes, ih]

theorem rotateFile_same_path (lib : ImageLib) (t : FileControl) (path : String) (a : Int)
    (h : t.m_currentPath = lib.localPath path) :
    rotateFile lib t path a =
      ({ t with m_rotateAngel := wrapInt32 (t.m_rotateAngel + a), m_tSaveImage := true },
        [.timerStart 100]) := by
  simp [rotateFile, h]

theorem rotateFile_other_path_idle (lib : ImageLib) (s : FileControl) (path : String)
    (a : Int) (h : s.m_currentPath ≠ lib.localPath path) (h0 : s.m_rotateAngel = 0) :
    (rotateFile lib s path a).1 =
        { m_currentPath := lib.localPath path, m_rotateAngel := a, m_tSaveImage := true } ∧
      writes (rotateFile lib s path a).2 = [] := by
  have hz : (0 : Int).tmod 360 = 0 := by decide
  cases ht : s.m_tSaveImage <;>
    simp [rotateFile, slotRotatePixCurrent, h, h0, hz, ht, writes]

/-- Calls for the path that is already current only accumulate the angle. -/
theorem rotateFileAll_same_path (lib : ImageLib) (path : String) (angles : List Int)
    (t : FileControl) (h : t.m_currentPath = lib.localPath path) :
    (rotateFileAll lib path angles t).1.m_currentPath = lib.localPath path ∧
      (rotateFileAll lib path angles t).1.m_rotateAngel =
        (if angles = [] then t.m_rotateAngel else wrapInt32 (t.m_rotateAngel + angles.sum)) ∧
      writes (rotateFileAll lib path angles t).2 = [] := by
  induction angles generalizing t with
  | nil => exact ⟨h, rfl, rfl⟩
  | cons a rest ih =>
    have hStep := rotateFile_same_path lib t path a h
    have hRec := ih
      { t with m_rotateAngel := wrapInt32 (t.m_rotateAngel + a), m_tSaveImage := true } h
    simp only [rotateFileAll, hStep, writes_append]
    refine ⟨hRec.1, ?_, ?_⟩
    · rw [hRec.2.1]
      by_cases hr : rest = []
      · subst hr; simp
      · simp only [hr, if_false, List.sum_cons, reduceCtorEq]
        rw [wrapInt32_wrap_add, add_assoc]
    · rw [hRec.2.2]
      rfl

/-- From a state with nothing pending, the calls leave the sum of the angles
pending for the path and write nothing. -/
theorem rotateFileAll_idle (lib : ImageLib) (path : String) (angles : List Int)
    (s : FileControl) (hIdle : s.m_rotateAngel = 0)
    (hLow : -2147483648 ≤ angles.sum) (hHigh : angles.sum < 2147483648) :
    (rotateFileAll lib path angles s).1.m_rotateAngel = angles.sum ∧
      (angles ≠ [] → (rotateFileAll lib path angles s).1.m_currentPath = lib.localPath path) ∧
      writes (rotateFileAll lib path angles s).2 = [] := by
  cases angles with
  | nil => exact ⟨by simpa using hIdle, fun h => absurd rfl h, rfl⟩
  | cons a rest =>
    by_cases hc : s.m_currentPath = lib.localPath path
    · have h := rotateFileAll_same_path lib path (a :: rest) s hc
      refine ⟨?_, fun _ => h.1, h.2.2⟩
      rw [h.2.1]
      simp only [reduceCtorEq, if_false, hIdle, zero_add]
      exact wrapInt32_of_range _ hLow hHigh
    · have hStep := rotateFile_other_path_idle lib s path a hc hIdle
      have hRec := rotateFileAll_same_path lib path rest (rotateFile lib s path a).1
        (by rw [hStep.1])
      simp only [rotateFileAll, writes_append]
      refine ⟨?_, fun _ => hRec.1, ?_⟩
      · rw [hRec.2.1, hStep.1]
        by_cases hr : rest = []
        · subst hr; simp
        · simp only [hr, if_false]
          rw [← List.sum_cons]
          exact wrapInt32_of_range _ hLow hHigh
      · rw [hStep.2, hRec.2.2]
        rfl

/-- What a commit writes: the pending angle reduced by the C++ remainder, when
that is not zero and the storage type allows the write. -/
theorem slotRotatePixCurrent_writes (lib : ImageLib) (s : FileControl) (b : Bool) :
    writes (slotRotatePixCurrent lib s b).2 =
      (if s.m_rotateAngel.tmod 360 = 0 then []
        else if writeAllowed (lib.getPathType s.m_currentPath) then
          [(s.m_rotateAngel.tmod 360, s.m_currentPath)]
        else []) := by
  cases ht : s.m_tSaveImage <;> cases b <;>
    by_cases hz : s.m_rotateAngel.tmod 360 = 0 <;>
    cases hw : writeAllowed (lib.getPathType s.m_currentPath) <;>
    simp [slotRotatePixCurrent, ht, hz, hw, writes]

end FileControl

/-- C20: from a state with no rotation pending, `rotateFile` calls for one
writable path with angles whose sum `s` is in the range of `int`, followed by
one commit, write to disk exactly when `s` is not a multiple of 360, and then
once, for that path, with the angle `s % 360` of C++: congruent to `s` modulo
360 and strictly between -360 and 360. -/
theorem C20_rotation_normalised (lib : ImageLib) (s : FileControl) (path : String)
    (angles : List Int) (bNotifyExternal : Bool)
    (hWritable : writeAllowed (lib.getPathType (lib.localPath path)) = true)
    (hIdle : s.m_rotateAngel = 0)
    (hLow : -2147483648 ≤ angles.sum) (hHigh : angles.sum < 2147483648) :
    writes ((rotateFileAll lib path angles s).2 ++
        (slotRotatePixCurrent lib (rotateFileAll lib path angles s).1 bNotifyExternal).2) =
        (if (360 : Int) ∣ angles.sum then []
          else [(angles.sum.tmod 360, lib.localPath path)]) ∧
      ((360 : Int) ∣ angles.sum - angles.sum.tmod 360) ∧
      -360 < angles.sum.tmod 360 ∧ angles.sum.tmod 360 < 360 := by
  have hRun := rotateFileAll_idle lib path angles s hIdle hLow hHigh
  refine ⟨?_, ?_, tmod_360_gt _, Int.tmod_lt_of_pos _ (by decide)⟩
  · rw [writes_append, hRun.2.2, slotRotatePixCurrent_writes, hRun.1, List.nil_append]
    by_cases hd : (360 : Int) ∣ angles.sum
    · rw [if_pos hd, if_pos (Int.tmod_eq_zero_of_dvd hd)]
    · have hz : ¬ angles.sum.tmod 360 = 0 := fun h => hd (Int.dvd_of_tmod_eq_zero h)
      have hne : angles ≠ [] := by
        intro h
        subst h
        exact hd (by simp)
      rw [if_neg hd, if_neg hz, hRun.2.1 hne, hWritable]
      rfl
  · rw [Int.tmod_def]
    exact ⟨angles.sum.tdiv 360, by ring⟩

/-- C20 on a fresh `FileControl`: four rotations by 90 write nothing, and
rotations by -90, -90 and -270 write the angle -90. -/
theorem C20_rotation_normalised_witness :
    writes ((rotateFileAll demoLib "/tmp/dir/a.png" [90, 90, 90, 90] ⟨"", 0, false⟩).2 ++
        (slotRotatePixCurrent demoLib
          (rotateFileAll demoLib "/tmp/dir/a.png" [90, 90, 90, 90] ⟨"", 0, false⟩).1
          false).2) = [] ∧
      writes ((rotateFileAll demoLib "/tmp/dir/a.png" [-90, -90, -270] ⟨"", 0, false⟩).2 ++
        (slotRotatePixCurrent demoLib
          (rotateFileAll demoLib "/tmp/dir/a.png" [-90, -90, -270] ⟨"", 0, false⟩).1
          false).2) = [(-90, "/tmp/dir/a.png")] :=
  ⟨(C20_rotation_normalised demoLib ⟨"", 0, false⟩ "/tmp/dir/a.png" [90, 90, 90, 90] false
      (by decide) rfl (by decide) (by decide)).1.trans (by decide),
    (C20_rotation_normalised demoLib ⟨"", 0, false⟩ "/tmp/dir/a.png" [-90, -90, -270] false
      (by decide) rfl (by decide) (by decide)).1.trans (by decide)⟩

/-! ## The watch reconciler: reset to another directory -/

namespace PathMap

end PathMap

namespace QFileSystemWatcher

end QFileSystemWatcher

namespace ImageFileWatcher

end ImageFileWatcher

/-- C21, the claim as stated fails for an angle that is a multiple of 360: four
calls `rotateFile("/tmp/dir/a.png", 90)` leave 360 pending for a file on
ordinary storage, and the commit writes nothing. -/
theorem C21_full_turn_not_written :
    (rotateFileAll demoLib "/tmp/dir/a.png" [90, 90, 90, 90] ⟨"", 0, false⟩).1 =
        ⟨"/tmp/dir/a.png", 360, true⟩ ∧
      (FileControl.mk "/tmp/dir/a.png" 360 true).m_rotateAngel ≠ 0 ∧
      writeAllowed (demoLib.getPathType "/tmp/dir/a.png") = true ∧
      writes (slotRotatePixCurrent demoLib ⟨"/tmp/dir/a.png", 360, true⟩ false).2 = [] := by
  decide

/-- C21, amended: when the pending angle is not a multiple of 360, a commit
calls `rotateImageFIle` exactly when the storage type of the path is none of
MTP, PTP, Apple device, secure vault and recycle bin, and then once with the
reduced angle; for those five types the commit does nothing but stop the
timer, so it writes nothing and emits no `callSavePicDone`; in both cases the
pending angle is 0 afterwards. -/
theorem C21_write_gated_by_storage (lib : ImageLib) (s : FileControl) (b : Bool)
    (hPending : s.m_rotateAngel.tmod 360 ≠ 0) :
    (writeAllowed (lib.getPathType s.m_currentPath) = true ↔
        lib.getPathType s.m_currentPath ≠ .PathTypeMTP ∧
          lib.getPathType s.m_currentPath ≠ .PathTypePTP ∧
          lib.getPathType s.m_currentPath ≠ .PathTypeAPPLE ∧
          lib.getPathType s.m_currentPath ≠ .PathTypeSAFEBOX ∧
          lib.getPathType s.m_currentPath ≠ .PathTypeRECYCLEBIN) ∧
      (writeAllowed (lib.getPathType s.m_currentPath) = true →
        writes (slotRotatePixCurrent lib s b).2 =
          [(s.m_rotateAngel.tmod 360, s.m_currentPath)]) ∧
      (writeAllowed (lib.getPathType s.m_currentPath) = false →
        (slotRotatePixCurrent lib s b).2 = (if s.m_tSaveImage then [.timerStop] else [])) ∧
      (slotRotatePixCurrent lib s b).1.m_rotateAngel = 0 := by
  refine ⟨?_, ?_, ?_, rfl⟩
  · cases lib.getPathType s.m_currentPath <;> simp [writeAllowed]
  · intro hw
    rw [slotRotatePixCurrent_writes, if_neg hPending, hw]
    rfl
  · intro hw
    have hne : (s.m_rotateAngel.tmod 360 != 0) = true := by simpa using hPending
    simp only [slotRotatePixCurrent, hne, if_true, hw, Bool.false_eq_true, if_false,
      List.append_nil]

/-- C21, amended, for 90 pending: written for a file on ordinary storage, and
dropped for a file on a phone. -/
theorem C21_write_gated_by_storage_witness :
    writes (slotRotatePixCurrent demoLib ⟨"/tmp/dir/a.png", 90, true⟩ false).2 =
        [(90, "/tmp/dir/a.png")] ∧
      (slotRotatePixCurrent demoLib ⟨"/run/user/1000/gvfs/mtp/a.png", 90, true⟩ true).2 =
        [.timerStop] ∧
      (slotRotatePixCurrent demoLib ⟨"/run/user/1000/gvfs/mtp/a.png", 90, true⟩
        true).1.m_rotateAngel = 0 :=
  ⟨(C21_write_gated_by_storage demoLib ⟨"/tmp/dir/a.png", 90, true⟩ false (by decide)).2.1
      (by decide),
    (C21_write_gated_by_storage demoLib ⟨"/run/user/1000/gvfs/mtp/a.png", 90, true⟩ true
      (by decide)).2.2.1 (by decide),
    (C21_write_gated_by_storage demoLib ⟨"/run/user/1000/gvfs/mtp/a.png", 90, true⟩ true
      (by decide)).2.2.2⟩

/-- C24: after a commit the pending angle is 0 and the save timer is stopped;
a second commit right after it changes nothing and has no effect at all, so it
writes nothing and emits no `callSavePicDone`, and the two commits together
write what the first one wrote, which is at most one file rewrite. -/
theorem C24_commit_idempotent (lib : ImageLib) (s : FileControl) (b b2 : Bool) :
    (slotRotatePixCurrent lib s b).1.m_rotateAngel = 0 ∧
      (slotRotatePixCurrent lib s b).1.m_tSaveImage = false ∧
      slotRotatePixCurrent lib (slotRotatePixCurrent lib s b).1 b2 =
        ((slotRotatePixCurrent lib s b).1, []) ∧
      writes ((slotRotatePixCurrent lib s b).2 ++
        (slotRotatePixCurrent lib (slotRotatePixCurrent lib s b).1 b2).2) =
        writes (slotRotatePixCurrent lib s b).2 ∧
      (writes (slotRotatePixCurrent lib s b).2).length ≤ 1 := by
  have hz : (0 : Int).tmod 360 = 0 := by decide
  have hSecond : slotRotatePixCurrent lib (slotRotatePixCurrent lib s b).1 b2 =
      ((slotRotatePixCurrent lib s b).1, []) := by
    simp [slotRotatePixCurrent, hz]
  refine ⟨rfl, rfl, hSecond, ?_, ?_⟩
  · rw [hSecond, List.append_nil]
  · rw [slotRotatePixCurrent_writes]
    split
    · simp
    · split <;> simp

/-! ## FileControl: wallpaper -/

/-- C22: for a path that is not null, `setWallpaper` calls
`SetMonitorBackground` on `org.deepin.dde.Appearance1` first whenever that
service is valid, and on `com.deepin.daemon.Appearance` after it exactly when
this one is valid and the first was invalid or answered with an error; so a
successful first call is the only call, and with both services invalid there
is none. -/
theorem C22_wallpaper_fallback (e : Session) (path : String) :
    setWallpaper e (some path) =
        (if e.v23Valid then
            [.SetMonitorBackground "org.deepin.dde.Appearance1" (screenname e) path]
          else []) ++
          (if e.v20Valid && (!e.v23Valid || !e.v23Error.isEmpty) then
            [.SetMonitorBackground "com.deepin.daemon.Appearance" (screenname e) path]
          else []) ∧
      (BusCall.SetMonitorBackground "org.deepin.dde.Appearance1" (screenname e) path ∈
          setWallpaper e (some path) ↔ e.v23Valid = true) ∧
      (BusCall.SetMonitorBackground "com.deepin.daemon.Appearance" (screenname e) path ∈
          setWallpaper e (some path) ↔
        e.v20Valid = true ∧ (e.v23Valid = false ∨ e.v23Error ≠ "")) ∧
      (e.v23Valid = true → e.v23Error = "" →
        setWallpaper e (some path) =
          [.SetMonitorBackground "org.deepin.dde.Appearance1" (screenname e) path]) ∧
      (e.v23Valid = false → e.v20Valid = false → setWallpaper e (some path) = []) := by
  have hEmpty : e.v23Error.isEmpty = true ↔ e.v23Error = "" := String.isEmpty_iff _
  have hNames : ("org.deepin.dde.Appearance1" : String) ≠ "com.deepin.daemon.Appearance" := by
    decide
  cases h23 : e.v23Valid <;> cases h20 : e.v20Valid <;> cases hErr : e.v23Error.isEmpty <;>
    simp [setWallpaper, h23, h20, hErr, hNames, hNames.symm, ← hEmpty]

/-- C22 on a session where the newer service answers with an error: both
services are called, the newer one first. -/
theorem C22_wallpaper_fallback_witness :
    setWallpaper demoSession (some "/tmp/dir/a.png") =
        [.SetMonitorBackground "org.deepin.dde.Appearance1" "eDP-1" "/tmp/dir/a.png",
          .SetMonitorBackground "com.deepin.daemon.Appearance" "eDP-1" "/tmp/dir/a.png"] ∧
      setWallpaper { demoSession with v23Error := "" } (some "/tmp/dir/a.png") =
        [.SetMonitorBackground "org.deepin.dde.Appearance1" "eDP-1" "/tmp/dir/a.png"] ∧
      setWallpaper { demoSession with v23Valid := false, v20Valid := false }
        (some "/tmp/dir/a.png") = [] :=
  ⟨(C22_wallpaper_fallback demoSession "/tmp/dir/a.png").1.trans (by decide),
    ((C22_wallpaper_fallback { demoSession with v23Error := "" } "/tmp/dir/a.png").2.2.2.1
      rfl rfl).trans (by decide),
    (C22_wallpaper_fallback { demoSession with v23Valid := false, v20Valid := false }
      "/tmp/dir/a.png").2.2.2.2 rfl rfl⟩

/-! ## The watch reconciler: pending entries -/

/-- C23: in every state reachable from the initial watcher by resets, renames,
`recordRotateImage`, `clearRotateStatus`, file-changed and directory-changed
events, every key of `removedFile` is a key of `cacheFileInfo`. -/
theorem C23_pending_entries_tracked (s : ImageFileWatcher) (h : Reachable s) (p : String)
    (hp : s.removedFile.contains p = true) : s.cacheFileInfo.contains p = true :=
  (PathMap.contains_iff_mem_keys _ _).2
    (removedFile_tracked_of_reachable h p ((PathMap.contains_iff_mem_keys _ _).1 hp))

/-- C23 on the watcher of `/tmp/dir/a.png` and `/tmp/dir/b.png` after a rename
of the first to `/tmp/dir/c.png` and a file-changed event for the absent
`/tmp/dir/b.png`. -/
theorem C23_pending_entries_tracked_witness :
    (((ImageFileWatcher.init.resetImageFiles
          (demoEnv ["/tmp/dir", "/tmp/dir/a.png", "/tmp/dir/b.png"])
          ["file:///tmp/dir/a.png", "file:///tmp/dir/b.png"]).fileRename
        (demoEnv ["/tmp/dir", "/tmp/dir/c.png", "/tmp/dir/b.png"]) "/tmp/dir/a.png"
        "/tmp/dir/c.png").onImageFileChanged (demoEnv ["/tmp/dir", "/tmp/dir/c.png"])
        "/tmp/dir/b.png").1.removedFile.contains "/tmp/dir/b.png" = true ∧
      (((ImageFileWatcher.init.resetImageFiles
          (demoEnv ["/tmp/dir", "/tmp/dir/a.png", "/tmp/dir/b.png"])
          ["file:///tmp/dir/a.png", "file:///tmp/dir/b.png"]).fileRename
        (demoEnv ["/tmp/dir", "/tmp/dir/c.png", "/tmp/dir/b.png"]) "/tmp/dir/a.png"
        "/tmp/dir/c.png").onImageFileChanged (demoEnv ["/tmp/dir", "/tmp/dir/c.png"])
        "/tmp/dir/b.png").1.cacheFileInfo.contains "/tmp/dir/b.png" = true :=
  ⟨by decide,
    C23_pending_entries_tracked _
      (Reachable.onImageFileChanged _ _
        (Reachable.fileRename _ _ _ (Reachable.resetImageFiles _ _ Reachable.init)))
      "/tmp/dir/b.png" (by decide)⟩

end DeepinAlbum
